import Mathlib

/-!
Verification of the woudc-data-registry validation-and-ingestion pipeline.

This file contains a shallow embedding, in Lean 4, of the parts of the
repository relevant to the frozen claims:

* `parser.py`  — the `ExtendedCSV` object model (`init_table`,
  `add_values_to_table`, `remove_table`, the `__init__` parse loop,
  `parse_utcoffset`, `_determine_version`);
* `report.py`  — the `ReportBuilder` batch record (`add_message`,
  `write_operator_report`, `record_passing_file`, `record_failing_file`);
* `processing.py` — the `Process` class (`process_data` and the
  `check_*` / `add_*` methods).

External collaborators that are not part of the source tree (the
`Registry` and `SearchIndex` adapters, the table-definition document
`DOMAINS`, the error-definitions file, `models.py`) are modelled as
abstract inputs, following the interface contracts in the specification.
Severity of a numeric message code comes from the external
error-definitions file and is therefore a parameter `sev : Nat → Bool`
(`true` = severe/Error).
-/

set_option linter.unusedVariables false

namespace WDR

/-! ### Python-style string helpers -/

/-- Prefix test on character lists (used for substring search). -/
def leadsWith : List Char → List Char → Bool
  | [], _ => true
  | _ :: _, [] => false
  | a :: as, b :: bs => a == b && leadsWith as bs

/-- Substring search on a character list, Python `needle in haystack`. -/
def hasSub (pat : String) : List Char → Bool
  | [] => pat.toList.isEmpty
  | c :: rest => leadsWith pat.toList (c :: rest) || hasSub pat rest

/-- Python `pat in s` (substring containment). -/
def containsSub (s pat : String) : Bool := hasSub pat s.toList

/-- Python `s.rstrip(bad)`: drop trailing characters belonging to `bad`. -/
def rstripChars (s : String) (bad : List Char) : String :=
  String.mk ((s.toList.reverse.dropWhile (fun c => bad.contains c)).reverse)

/-- The character set of `rstrip('0123456789_')` from `remove_table`. -/
def digitsUnderscore : List Char :=
  ['0', '1', '2', '3', '4', '5', '6', '7', '8', '9', '_']

/-- Python `s.lstrip(c)` for a single character: drop leading copies. -/
def lstripChar (s : String) (c : Char) : String :=
  String.mk (s.toList.dropWhile (fun x => x == c))

/-- Python `s.strip()` (whitespace strip from both ends). -/
def pyStrip (s : String) : String :=
  String.mk
    (((s.toList.dropWhile Char.isWhitespace).reverse.dropWhile
        Char.isWhitespace).reverse)

/-- Python `s.startswith(pre)`. -/
def strStarts (s pre : String) : Bool := leadsWith pre.toList s.toList

/-- Python `s.lower()` (ASCII case folding, which covers the acronyms,
serials and model names this pipeline compares). -/
def lowerChar (c : Char) : Char :=
  if 'A' ≤ c && c ≤ 'Z' then Char.ofNat (c.toNat + 32) else c

def asciiLower (s : String) : String := String.mk (s.toList.map lowerChar)

/-- Python `s.replace(pat, rep)` on character lists, left-to-right and
non-overlapping, with fuel bounded by the input length. -/
def replaceAux (pat rep : List Char) : Nat → List Char → List Char
  | 0, cs => cs
  | _, [] => []
  | fuel + 1, c :: rest =>
      if leadsWith pat (c :: rest) then
        rep ++ replaceAux pat rep fuel ((c :: rest).drop pat.length)
      else c :: replaceAux pat rep fuel rest

/-- Python `s.replace(pat, rep)` (for a non-empty pattern). -/
def strReplace (s pat rep : String) : String :=
  String.mk (replaceAux pat.toList rep.toList s.toList.length s.toList)

/-- Python `s.split(c)` for a single-character separator (also the
behaviour of the `csv` reader on a quote-free line when `c = ','`). -/
def splitOnCharAux (c : Char) : List Char → List Char → List String
  | acc, [] => [String.mk acc.reverse]
  | acc, x :: rest =>
      if x == c then String.mk acc.reverse :: splitOnCharAux c [] rest
      else splitOnCharAux c (x :: acc) rest

def splitOnChar (c : Char) (s : String) : List String :=
  splitOnCharAux c [] s.toList

/-- Python `sep.join(parts)`. -/
def joinWith (sep : String) : List String → String
  | [] => ""
  | [x] => x
  | x :: y :: xs => x ++ sep ++ joinWith sep (y :: xs)

/-! ### Kernel-computable rational comparisons

Mathlib's field operations on `ℚ` are `@[irreducible]`; the embedding
therefore works with the core representation directly.  `Rat.blt` is
the strict-order test underlying `<` and `≤` on `ℚ`. -/

/-- `a < b` as a boolean. -/
def qlt (a b : ℚ) : Bool := Rat.blt a b

/-- `a ≤ b` as a boolean. -/
def qle (a b : ℚ) : Bool := !(Rat.blt b a)

/-- Structural equality of (normalized) rationals. -/
def beqRat (a b : ℚ) : Bool := a.num == b.num && a.den == b.den

/-- `1 ≤ |a - b|`, computed on the cross-multiplied representation:
`|a.num * b.den - b.num * a.den| ≥ a.den * b.den`. -/
def qAbsDiffGe1 (a b : ℚ) : Bool :=
  a.den * b.den ≤ (a.num * (b.den : Int) - b.num * (a.den : Int)).natAbs

/-- Decidable equality of `Except` values, to evaluate the embedded
fallible functions on concrete inputs. -/
instance [DecidableEq ε] [DecidableEq α] : DecidableEq (Except ε α) :=
  fun a b =>
    match a, b with
    | .error e, .error f => decidable_of_iff (e = f) (by simp)
    | .ok x, .ok y => decidable_of_iff (x = y) (by simp)
    | .error _, .ok _ => .isFalse (by simp)
    | .ok _, .error _ => .isFalse (by simp)

/-! ### Extended CSV object model (`parser.py`)

A table is an ordered association list from (stripped) field name to a
column of raw strings; Python dict semantics give unique keys, with a
repeated assignment replacing the value in place.  `ECSV` packs the
three dictionaries `self.extcsv`, `self._table_count`, `self._line_num`
of `ExtendedCSV`. -/

abbrev Col := List String
abbrev Table := List (String × Col)

/-- Python `d[k] = v`: replace in place if present, else append. -/
def alistReplace (k : String) (v : α) : List (String × α) → List (String × α)
  | [] => [(k, v)]
  | (k', v') :: rest =>
      if k' == k then (k, v) :: rest else (k', v') :: alistReplace k v rest

/-- Python `d.pop(k)` (ignoring the KeyError case): drop first binding. -/
def alistErase (k : String) : List (String × α) → List (String × α)
  | [] => []
  | (k', v') :: rest =>
      if k' == k then rest else (k', v') :: alistErase k rest

structure ECSV where
  extcsv : List (String × Table)
  tableCount : List (String × Nat)
  lineNums : List (String × Nat)
deriving DecidableEq, Repr

def emptyECSV : ECSV := ⟨[], [], []⟩

/-- `ExtendedCSV.init_table` (parser.py:225-252).  Registers a new table
under `tableName`, suffixing `_<count>` when the base type was seen
before, with one empty column per stripped field name.  Returns the
final table name together with the updated document. -/
def initTable (e : ECSV) (tableName : String) (fields : List String)
    (ln : Nat) : String × ECSV :=
  let (name, counts) :=
    match List.lookup tableName e.tableCount with
    | none => (tableName, alistReplace tableName 1 e.tableCount)
    | some c =>
        (tableName ++ "_" ++ toString (c + 1),
         alistReplace tableName (c + 1) e.tableCount)
  let t : Table := fields.foldl (fun acc f => alistReplace (pyStrip f) ([] : Col) acc) []
  (name,
   { extcsv := alistReplace name t e.extcsv
     tableCount := counts
     lineNums := alistReplace name ln e.lineNums })

/-- One row of values zipped onto the bottom of each column
(the `for field, value in zip(fields, values)` loop). -/
def appendRow (tbl : Table) (padded : List String) : Table :=
  (tbl.zip padded).map (fun pv => (pv.1.1, pv.1.2 ++ [pyStrip pv.2]))

/-- `ExtendedCSV.add_values_to_table` (parser.py:254-281).  Emits message
25 when the row is wider than the header, truncates to the header width,
right-pads short rows with empty strings, and appends one (stripped)
value to every column.  Returns the updated document, the emitted
message codes, and the `success` boolean (`False` iff a severe message
was emitted).  The source would raise `KeyError` on an unknown table
name; the parse loop only ever passes names of existing tables, so that
case is returned unchanged here. -/
def addValuesToTable (sev : Nat → Bool) (e : ECSV) (name : String)
    (values : List String) (ln : Nat) : ECSV × List Nat × Bool :=
  match List.lookup name e.extcsv with
  | none => (e, [], true)
  | some tbl =>
      let n := tbl.length
      let over : Bool := decide (n < values.length)
      let padded := values.take n ++ List.replicate (n - values.length) ""
      ({ e with extcsv := alistReplace name (appendRow tbl padded) e.extcsv },
       if over then [25] else [],
       !(over && sev 25))

/-- `ExtendedCSV.remove_table` (parser.py:283-300).  The base type is the
name with trailing digits and underscores stripped; the table count for
that base type is decremented, or dropped when it was 1.  `none` models
the `KeyError` the source raises when the table name or its base type is
unknown. -/
def removeTable (e : ECSV) (name : String) : Option ECSV :=
  let ttype := rstripChars name digitsUnderscore
  if (List.lookup name e.extcsv).isNone then none
  else if (List.lookup name e.lineNums).isNone then none
  else
    match List.lookup ttype e.tableCount with
    | none => none
    | some c =>
        some { extcsv := alistErase name e.extcsv
               lineNums := alistErase name e.lineNums
               tableCount :=
                 if 1 < c then alistReplace ttype (c - 1) e.tableCount
                 else alistErase ttype e.tableCount }

/-- `non_content_line` (parser.py:82-97). -/
def nonContentLine (row : List String) : Bool :=
  match row with
  | [] => true
  | [first] => pyStrip first == "" || strStarts (pyStrip first) "*"
  | first :: _ => strStarts (pyStrip first) "*"

/-- The repaired separators scanned for by the parse loop
(parser.py:141). -/
def badSeps : List String := ["::", ";", "$", "%", "|", "\\"]

/-- Re-tokenisation of a repaired line: the source feeds
`row[0].replace(separator, ',')` back through the `csv` reader.  The
`csv` module is external; on quote-free content it splits on commas. -/
def retokenize (s : String) : List String := splitOnChar ',' s

/-- The separator-repair preamble of the parse loop (parser.py:140-150).
Separators are collected from the original first cell; each one is then
replaced by a comma in the current first cell (dropping any remaining
cells) and the line re-tokenised, emitting message 16 per separator. -/
def repairRow (sev : Nat → Bool) (row : List String) (success : Bool) :
    List String × Bool :=
  let seps :=
    if nonContentLine row then []
    else badSeps.filter (fun sep => containsSub (row.headD "") sep)
  seps.foldl
    (fun acc sep =>
      (retokenize (strReplace (acc.1.headD "") sep ","), acc.2 && !sev 16))
    (row, success)

/-- Control state of the `__init__` parse loop: either scanning normally
with an optional current parent table, or looking for the header row
that must follow a `#` line (the `next(lines)` / `while` inner loop). -/
inductive PMode where
  | normal (parent : Option String)
  | expectHeader (name : String) (headerLn : Nat)
deriving DecidableEq, Repr

structure ParseState where
  e : ECSV
  mode : PMode
  success : Bool
deriving DecidableEq, Repr

/-- One iteration of the `ExtendedCSV.__init__` parse loop
(parser.py:139-179), as a step function over `ParseState`.  In
`expectHeader` mode the line is consumed by the inner `next(lines)`
loop (message 14 for non-content lines, then `init_table`); in `normal`
mode the line goes through separator repair and the `#` / `*` / blank /
values / garbage classification. -/
def parseStep (sev : Nat → Bool) (st : ParseState) (item : Nat × List String) :
    ParseState :=
  let ln := item.1
  let row := item.2
  match st.mode with
  | .expectHeader name hln =>
      if nonContentLine row then
        { st with success := st.success && !sev 14 }
      else
        let r := initTable st.e name row hln
        { e := r.2, mode := .normal (some r.1), success := st.success }
  | .normal parent =>
      let rr := repairRow sev row st.success
      let row := rr.1
      let success := rr.2
      if row.length == 1 && strStarts (row.headD "") "#" then
        { st with
          mode := .expectHeader (pyStrip (lstripChar (row.headD "") '#')) ln
          success }
      else if 0 < row.length && strStarts (row.headD "") "*" then
        { st with success }
      else if nonContentLine row then
        { st with success }
      else
        match parent with
        | some p =>
            let r := addValuesToTable sev st.e p row ln
            { e := r.1, mode := .normal parent, success := success && r.2.2 }
        | none => { st with success := success && !sev 15 }

/-- The whole `ExtendedCSV.__init__` parse loop over the enumerated,
csv-tokenised input lines.  A dangling `#` line at end of input is the
`StopIteration` branch, message 9.  Returns the document and the final
`success` flag. -/
def parseECSV (sev : Nat → Bool) (rows : List (List String)) : ECSV × Bool :=
  let fin := (List.enumFrom 1 rows).foldl (parseStep sev)
    ⟨emptyECSV, .normal none, true⟩
  match fin.mode with
  | .expectHeader _ _ => (fin.e, fin.success && !sev 9)
  | .normal _ => (fin.e, fin.success)

/-- `ExtendedCSV` construction: `raise NonStandardDataError` at the end
of `__init__` when any severe message was emitted, else the parsed
document. -/
def ecsvConstruct (sev : Nat → Bool) (rows : List (List String)) :
    Option ECSV :=
  let r := parseECSV sev rows
  if r.2 then some r.1 else none

/-- A sequence of `init_table` calls (name, fields, line), run from the
empty document; this is exactly what the parse loop performs on the
table dictionary. -/
def runInits (ops : List (String × List String × Nat)) : ECSV :=
  ops.foldl (fun e op => (initTable e op.1 op.2.1 op.2.2).2) emptyECSV

/-! ### Invariants stated over the object model -/

/-- Every column of the table has the same length. -/
def uniformTable (t : Table) : Prop :=
  ∀ c1 ∈ t, ∀ c2 ∈ t, c1.2.length = c2.2.length

instance (t : Table) : Decidable (uniformTable t) := by
  unfold uniformTable; infer_instance

/-- The instance name of the `j`-th occurrence of base type `t`:
`t` itself for the first, `t_j` afterwards. -/
def instName (t : String) (j : Nat) : String :=
  if j ≤ 1 then t else t ++ "_" ++ toString j

def keysOf (e : ECSV) : List String := e.extcsv.map Prod.fst

/-- Dense instance naming: every base type with count `k` has exactly
the instance names `t, t_2, …, t_k` present, and every table name in
the document is one of those. -/
def dense (e : ECSV) : Prop :=
  (∀ p ∈ e.tableCount,
      1 ≤ p.2 ∧ ∀ j, 1 ≤ j → j ≤ p.2 → instName p.1 j ∈ keysOf e) ∧
  (∀ nm ∈ keysOf e, ∃ p ∈ e.tableCount, ∃ j, 1 ≤ j ∧ j ≤ p.2 ∧
      nm = instName p.1 j)

/-! ### `ExtendedCSV.parse_utcoffset` (parser.py:514-610)

The two anchored regular expressions of the source are realised as
direct matchers over the character list.  For the first template
`(\+|-|\+-)?(\d{1,2})(delim(\d{0,2}))?(delim(\d{0,2}))?` with
`delim = [^-\+\w\d]`, maximal munch is equivalent to the backtracking
semantics: after a digit group, the next character must be a delimiter
or the end, so shorter digit groups can never rescue a failed match.
An absent group and a group with zero digits both produce `""`, which
is exactly how the source consumes them (`if not minute`). -/

/-- A delimiter for the UTC-offset templates: not `[-+\w\d]`, i.e.
not alphanumeric, not an underscore, not a sign. -/
def isDelim (c : Char) : Bool :=
  !(c.isAlphanum || c == '_' || c == '+' || c == '-')

/-- Take at most two leading digits. -/
def takeDigits2 (cs : List Char) : String × List Char :=
  match cs with
  | a :: b :: rest =>
      if a.isDigit then
        if b.isDigit then (String.mk [a, b], rest)
        else (String.mk [a], b :: rest)
      else ("", cs)
  | [a] => if a.isDigit then (String.mk [a], []) else ("", cs)
  | [] => ("", [])

/-- The sign alternation `(\+|-|\+-)?` with Python's leftmost-longest
backtracking: a `+-` prefix can only ever match via the third
alternative. -/
def takeSign (cs : List Char) : String × List Char :=
  match cs with
  | '+' :: '-' :: rest => ("+-", rest)
  | '+' :: rest => ("+", rest)
  | '-' :: rest => ("-", rest)
  | _ => ("", cs)

/-- Matcher for the main UTC-offset template.  Returns
`(sign, hour, minute, second)` on a whole-string match, where `minute`
and `second` are `""` when their group is absent or empty. -/
def matchOffsetMain (s : String) : Option (String × String × String × String) :=
  let s1 := takeSign s.toList
  let h := takeDigits2 s1.2
  if h.1 == "" then none
  else
    match h.2 with
    | [] => some (s1.1, h.1, "", "")
    | c :: rest =>
        if isDelim c then
          let m := takeDigits2 rest
          match m.2 with
          | [] => some (s1.1, h.1, m.1, "")
          | c2 :: rest2 =>
              if isDelim c2 then
                let sc := takeDigits2 rest2
                if sc.2.isEmpty then some (s1.1, h.1, m.1, sc.1) else none
              else none
        else none

/-- Matcher for the all-zeros fallback template
`^sign [0]+ delim? [0]* delim? [0]*$`: after the optional sign the
string must start with `0`, contain only zeros and delimiters, and at
most two delimiters. -/
def matchZeros (s : String) : Bool :=
  let s1 := takeSign s.toList
  let cs := s1.2
  match cs with
  | [] => false
  | c :: _ =>
      c == '0' && cs.all (fun x => x == '0' || isDelim x) &&
        (cs.filter isDelim).length ≤ 2

/-- Left-pad a component to two characters with `0` (Python
`s.rjust(2, '0')` on a component of length at most 2). -/
def pad2 (s : String) : String := if s.length < 2 then "0" ++ s else s

/-- Decimal value of a digit string. -/
def digitsToNat (s : String) : Nat :=
  s.toList.foldl (fun acc c => acc * 10 + (c.toNat - '0'.toNat)) 0

/-- Two-digit rendering of a number below 100, as `str(time(...))`
prints each component. -/
def twoDigits (n : Nat) : String :=
  if n < 10 then "0" ++ toString n else toString n

/-- The separator-repair preamble of `parse_utcoffset`
(parser.py:530-536): every distinct character outside `[-+\w\d]` other
than `:` emits message 41 and is replaced by `:` throughout.  Python
iterates the distinct characters in `set` order; first-occurrence order
is used here (the replacements commute, so the resulting string does
not depend on the order). -/
def repairSeps (sev : Nat → Bool) (s : String) : String × List Nat × Bool :=
  let bad := (s.toList.filter (fun c => isDelim c && c != ':')).eraseDups
  (bad.foldl (fun acc c => strReplace acc (String.mk [c]) ":") s,
   bad.map (fun _ => 41),
   bad.isEmpty || !sev 41)

/-- `ExtendedCSV.parse_utcoffset` (parser.py:514-610).  Returns the
normalised offset string (`none` models the `ValueError` raise) and
the list of emitted message codes, in order. -/
def parseUTCOffset (sev : Nat → Bool) (input : String) :
    Option String × List Nat :=
  let rep := repairSeps sev input
  let s := rep.1
  let msgs0 := rep.2.1
  let succ0 := rep.2.2
  match matchOffsetMain s with
  | some m =>
      let sign0 := m.1
      let hour0 := m.2.1
      let minute0 := m.2.2.1
      let second0 := m.2.2.2
      let hr := if hour0.length < 2
        then (pad2 hour0, [42], !sev 42) else (hour0, [], true)
      let mn := if minute0 == ""
        then ("00", [43], !sev 43)
        else if minute0.length < 2
        then (pad2 minute0, [42], !sev 42) else (minute0, [], true)
      let sc := if second0 == ""
        then ("00", [43], !sev 43)
        else if second0.length < 2
        then (pad2 second0, [42], !sev 42) else (second0, [], true)
      let sg :=
        if hr.1 == "00" && mn.1 == "00" && sc.1 == "00" then
          if sign0 != "+" then ("+", [45], !sev 45) else (sign0, [], true)
        else if sign0 == "" then ("+", [44], !sev 44)
        else if sign0 == "+-" then ("-", [45], !sev 45)
        else (sign0, [], true)
      let msgs := msgs0 ++ hr.2.1 ++ mn.2.1 ++ sc.2.1 ++ sg.2.1
      let success := succ0 && hr.2.2 && mn.2.2 && sc.2.2 && sg.2.2
      if !success then (none, msgs)
      else
        let h := digitsToNat hr.1
        let mi := digitsToNat mn.1
        let se := digitsToNat sc.1
        if h ≤ 23 && mi ≤ 59 && se ≤ 59 then
          (some (sg.1 ++ twoDigits h ++ ":" ++ twoDigits mi ++ ":" ++
                 twoDigits se),
           msgs)
        else (none, msgs ++ [47])
  | none =>
      if matchZeros s then
        if sev 46 then (none, msgs0 ++ [46])
        else (some "+00:00:00", msgs0 ++ [46])
      else (none, msgs0 ++ [47])

/-! ### `ExtendedCSV._determine_version` (parser.py:930-974)

The version-keyed leaf of the dataset schema is a map from version
string to the key set of that version's table group (which includes the
`data_table` entry, exactly as `schema[version].keys()` does in the
source).  The document contributes its list of table-instance names.
`VErr` models the possible abnormal exits: the uncaught
`ZeroDivisionError` from `rating`, the message-13
`NonStandardDataError`, Python's `max` on an empty sequence, and the
implicit `return None` should the final loop find no version (which
cannot happen, as proved below). -/

inductive VErr where
  | zeroDivision
  | thirteen
  | emptyInput
  | noReturn
deriving DecidableEq, Repr

/-- The tables of version `v` in the schema (the group's key set). -/
def tablesOf (schema : List (String × List String)) (v : String) :
    List String :=
  (List.lookup v schema).getD []

/-- `uniques[version]`: the tables of `v` that occur in no other
version's group (the `u -= set(tables[other_version])` loop). -/
def uniqueTables (schema : List (String × List String)) (v : String) :
    List String :=
  (tablesOf schema v).filter
    (fun t => schema.all (fun p => p.1 == v || !(p.2.contains t)))

/-- `candidates[version]`: the document tables that lie in
`uniques[version]` (each document key is iterated once). -/
def candidateCount (schema : List (String × List String))
    (docTables : List String) (v : String) : Nat :=
  (docTables.filter (fun t => (uniqueTables schema v).contains t)).length

/-- The `rating` closure: `len(candidates[version]) / len(uniques[version])`,
as a rational. -/
def ratingOf (schema : List (String × List String))
    (docTables : List String) (v : String) : ℚ :=
  mkRat (candidateCount schema docTables v : Int)
    (uniqueTables schema v).length

/-- Python `max` over two rationals: the second argument replaces the
first exactly when it is strictly greater. -/
def qmax (a b : ℚ) : ℚ := if Rat.blt a b then b else a

/-- `best_match = max(candidate_scores)`, `none` on an empty schema. -/
def bestScore (schema : List (String × List String))
    (docTables : List String) : Option ℚ :=
  match (schema.map Prod.fst).map (ratingOf schema docTables) with
  | [] => none
  | q :: qs => some (qs.foldl qmax q)

/-- `ExtendedCSV._determine_version` (parser.py:930-974).  Computing any
rating with an empty unique set raises `ZeroDivisionError` before the
maximum is taken; a zero best match reports message 13 and raises
`NonStandardDataError`; otherwise the first version whose rating equals
the maximum is returned. -/
def determineVersion (schema : List (String × List String))
    (docTables : List String) : Except VErr String :=
  let versions := schema.map Prod.fst
  if versions.any (fun v => (uniqueTables schema v).isEmpty) then
    .error .zeroDivision
  else
    match bestScore schema docTables with
    | none => .error .emptyInput
    | some best =>
        if beqRat best 0 then .error .thirteen
        else
          match versions.find? (fun v =>
              beqRat (ratingOf schema docTables v) best) with
          | some v => .ok v
          | none => .error .noReturn

/-! ### `ReportBuilder` (report.py)

The error-definitions file is external data; a loaded definition is a
severity class string plus a message template, the latter as parsed
`{placeholder}` parts, so that Python's `str.format(**kwargs)` and its
`KeyError` on a missing keyword are represented. -/

/-- One part of a message template: literal text or a `{name}`
placeholder. -/
inductive TPart where
  | lit (s : String)
  | ph (name : String)
deriving DecidableEq, Repr

/-- `message_template.format(**kwargs)`; `.error ()` is the `KeyError`
raised when a placeholder has no matching keyword argument. -/
def formatTemplate (tpl : List TPart) (kwargs : List (String × String)) :
    Except Unit String :=
  tpl.foldl
    (fun acc part =>
      match acc, part with
      | .error e, _ => .error e
      | .ok s, .lit t => .ok (s ++ t)
      | .ok s, .ph nm =>
          match List.lookup nm kwargs with
          | some v => .ok (s ++ v)
          | none => .error ())
    (.ok "")

/-- The `_report_batch` of `ReportBuilder` (report.py:79-95): the four
per-message columns plus the denormalised file-level fields. -/
structure Batch where
  status : String
  errType : List String
  errCode : List Nat
  lineNum : List (Option Int)
  messages : List String
  dataset : String
  dataLevel : String
  dataForm : String
  agency : String
  stationType : String
  stationId : String
  filename : String
  incomingPath : String
  outgoingPath : String
  urn : String
deriving DecidableEq, Repr

def emptyBatch : Batch :=
  ⟨"", [], [], [], [], "", "", "", "", "", "", "", "", "", ""⟩

/-- `ReportBuilder.add_message` (report.py:366-397).  An unknown error
code, or a `KeyError` while formatting, is caught and re-raised as
`ValueError` (`.error ()`), recording nothing.  A known code appends to
the four per-message columns and returns the message together with
`severe`, which the source computes as `error_class != 'Warning'`. -/
def addMessage (defs : List (Nat × String × List TPart)) (code : Nat)
    (line : Option Int) (kwargs : List (String × String)) (b : Batch) :
    Except Unit ((String × Bool) × Batch) :=
  match List.lookup code defs with
  | none => .error ()
  | some d =>
      match formatTemplate d.2 kwargs with
      | .error _ => .error ()
      | .ok message =>
          .ok ((message, !(d.1 == "Warning")),
            { b with
              lineNum := b.lineNum ++ [line]
              errCode := b.errCode ++ [code]
              errType := b.errType ++ [d.1]
              messages := b.messages ++ [message] })

/-- Comma escaping applied to the message column
(`message.replace(',', '\\,')`, report.py:533). -/
def escMsg (m : String) : String := strReplace m "," "\\,"

/-- The rows emitted by one call of `ReportBuilder.write_operator_report`
(report.py:505-546), excluding the header line: one CSV row per entry of
`zip(Line Number, Error Type, Error Code, Message)`, with every batch
field denormalised into the row. -/
def writeOperatorReportRows (b : Batch) : List String :=
  (b.lineNum.zip (b.errType.zip (b.errCode.zip b.messages))).map
    (fun q =>
      let line := match q.1 with | none => "" | some n => toString n
      joinWith ","
        [b.status, q.2.1, toString q.2.2.1, line, escMsg q.2.2.2,
         b.dataset, b.dataLevel, b.dataForm, b.agency, b.stationType,
         b.stationId, b.filename, b.incomingPath, b.outgoingPath, b.urn])

/-- The Extended-CSV metadata `_load_processing_results` copies into the
batch (report.py:161-178); `none` stands for a file that failed to
parse, in which case every field falls back to the empty string. -/
structure DocMeta where
  stationType : String
  stationId : String
  dataset : String
  dataLevel : String
  dataForm : String
  agency : String
deriving DecidableEq, Repr

/-- The data-record fields `_load_processing_results` uses
(report.py:180-186); `none` when processing did not produce a record. -/
structure RecMeta where
  wafPath : String
  urn : String
deriving DecidableEq, Repr

/-- Python `os.path.basename`: the part after the last `/`. -/
def basename (p : String) : String := (splitOnChar '/' p).getLastD ""

/-- `ReportBuilder._load_processing_results` (report.py:146-190). -/
def loadProcessingResults (filepath contributor : String)
    (meta : Option DocMeta) (rec : Option RecMeta) (b : Batch) : Batch :=
  let b := match meta with
    | some m =>
        { b with stationType := m.stationType, stationId := m.stationId,
                 dataset := m.dataset, dataLevel := m.dataLevel,
                 dataForm := m.dataForm, agency := m.agency }
    | none =>
        { b with stationType := "", stationId := "", dataset := "",
                 dataLevel := "", dataForm := "", agency := "" }
  let b := match rec with
    | some r => { b with outgoingPath := r.wafPath, urn := r.urn }
    | none => { b with outgoingPath := "", urn := "" }
  { b with agency := contributor, incomingPath := filepath,
           filename := basename filepath }

/-- The operator-report rows flushed by `ReportBuilder.record_passing_file`
(report.py:399-423): metadata is loaded, the processing status set to
`P`, and `_flush_report_batch` calls `write_operator_report`. -/
def recordPassingRows (filepath : String) (meta : DocMeta) (rec : RecMeta)
    (b : Batch) : List String :=
  let b := loadProcessingResults filepath meta.agency (some meta) (some rec) b
  writeOperatorReportRows { b with status := "P" }

/-- The operator-report rows flushed by `ReportBuilder.record_failing_file`
(report.py:425-451): status `F`, no data record. -/
def recordFailingRows (filepath contributor : String)
    (meta : Option DocMeta) (b : Batch) : List String :=
  let b := loadProcessingResults filepath contributor meta none b
  writeOperatorReportRows { b with status := "F" }

/-! ### Python dynamic values, for `processing.py`

The fields `CONTENT.Level`, `CONTENT.Form`, `DATA_GENERATION.Version`
and the `LOCATION` coordinates hold dynamically-typed values after
typecasting; `PyVal` is the tagged variant, with `null` for Python
`None` (also standing for an absent optional field fetched with
`.get(..., None)`). -/

inductive PyVal where
  | str (s : String)
  | int (n : Int)
  | float (q : ℚ)
  | null
  | date (d : Int)
deriving DecidableEq, Repr

inductive PyErr where
  | valueErr
  | typeErr
deriving DecidableEq, Repr

/-- Python truthiness. -/
def pyTruthy : PyVal → Bool
  | .str s => s != ""
  | .int n => n != 0
  | .float q => q != 0
  | .null => false
  | .date _ => true

/-- A plain decimal float literal: optional sign, digits, optional
fractional part (the shapes `float()` accepts that occur in this
pipeline; exponents and the special values are out of scope). -/
def parseFloatStr (s : String) : Option ℚ :=
  let cs := (pyStrip s).toList
  let sgn : Int × List Char :=
    match cs with
    | '+' :: rest => (1, rest)
    | '-' :: rest => (-1, rest)
    | _ => (1, cs)
  let ip := sgn.2.takeWhile Char.isDigit
  let rest := sgn.2.drop ip.length
  match rest with
  | [] =>
      if ip.isEmpty then none
      else some (mkRat (sgn.1 * (digitsToNat (String.mk ip) : Int)) 1)
  | '.' :: fp =>
      if fp.all Char.isDigit && !(ip.isEmpty && fp.isEmpty) then
        some (mkRat
          (sgn.1 * ((digitsToNat (String.mk ip) : Int) * (10 ^ fp.length : Nat) +
            (digitsToNat (String.mk fp) : Int)))
          (10 ^ fp.length))
      else none
  | _ => none

/-- A plain integer literal (`int()` on a string rejects `3.5`). -/
def parseIntStr (s : String) : Option Int :=
  let cs := (pyStrip s).toList
  let sgn : Int × List Char :=
    match cs with
    | '+' :: rest => (1, rest)
    | '-' :: rest => (-1, rest)
    | _ => (1, cs)
  if sgn.2.isEmpty || !sgn.2.all Char.isDigit then none
  else some (sgn.1 * (digitsToNat (String.mk sgn.2) : Int))

/-- Python `float(v)`: `ValueError` on an unparseable string,
`TypeError` on `None` (and other non-numeric objects). -/
def pyFloat : PyVal → Except PyErr ℚ
  | .float q => .ok q
  | .int n => .ok (Rat.ofInt n)
  | .str s => match parseFloatStr s with
      | some q => .ok q
      | none => .error .valueErr
  | .null => .error .typeErr
  | .date _ => .error .typeErr

/-- Truncation of a rational toward zero, Python `int(float)`. -/
def truncRat (q : ℚ) : Int := q.num.tdiv (q.den : Int)

/-- Python `int(v)`. -/
def pyInt : PyVal → Except PyErr Int
  | .int n => .ok n
  | .float q => .ok (truncRat q)
  | .str s => match parseIntStr s with
      | some n => .ok n
      | none => .error .valueErr
  | .null => .error .typeErr
  | .date _ => .error .typeErr

/-- Python `str(v)` as far as this pipeline compares such strings:
exact for strings and integers; a float with unit denominator prints
with a trailing `.0` as Python does, and any other float prints with a
`/`, which like Python's decimal rendering can never equal `str(int)`
output. -/
def pyStrOf : PyVal → String
  | .str s => s
  | .int n => toString n
  | .float q =>
      if q.den = 1 then toString q.num ++ ".0"
      else toString q.num ++ "/" ++ toString q.den
  | .null => "None"
  | .date d => "date-" ++ toString d

/-- Python `==` between dynamic values: numeric values compare across
`int`/`float`, everything else within its own type only. -/
def pyEq : PyVal → PyVal → Bool
  | .int a, .int b => a == b
  | .int a, .float q => q.den == 1 && q.num == a
  | .float q, .int a => q.den == 1 && q.num == a
  | .float a, .float b => beqRat a b
  | .str a, .str b => a == b
  | .null, .null => true
  | .date a, .date b => a == b
  | _, _ => false

/-- Python `v.isFloat` stand-in for `isinstance(v, float)`. -/
def PyVal.isFloatVal : PyVal → Bool
  | .float _ => true
  | _ => false

def PyVal.isIntVal : PyVal → Bool
  | .int _ => true
  | _ => false

/-! ### The `Process` pipeline (`processing.py`)

`Doc` is the projection of `self.extcsv.extcsv` (and
`self.extcsv.line_num`) onto the fields the `Process` methods read or
write; dates are abstracted to integers (only their order is used).
`processing.py` treats `line_num` as a subscriptable mapping, which is
how it is modelled.  `Reg` models the external `Registry` collaborator
per the specification contract (`query_by_field`,
`query_multiple_fields` with case-insensitive fields, `query_distinct`,
`save`), and `Effect` records every write the pipeline performs against
the registry, the file system and the search index. -/

structure Doc where
  contentClass : String
  contentCategory : String
  contentLevel : PyVal
  contentForm : PyVal
  dgAgency : String
  dgDate : PyVal
  dgVersion : PyVal
  platformID : String
  platformType : String
  platformName : String
  platformCountry : String
  instrName : String
  instrModel : String
  instrNumber : String
  locLat : PyVal
  locLon : PyVal
  locHeight : PyVal
  timestampDate : Int
  hasCProfile : Bool
  lineCONTENT : Int
  linePLATFORM : Int
  lineINSTRUMENT : Int
  lineLOCATION : Int
  lineDG : Int
  lineTIMESTAMP : Int
deriving DecidableEq, Repr

structure StationRec where
  identifier : String
  name : String
  countryId : String
  country : String
deriving DecidableEq, Repr

structure DeploymentRec where
  identifier : String
  startDate : Int
  endDate : Int
deriving DecidableEq, Repr

structure InstrumentRec where
  identifier : String
  name : String
  model : String
  serial : String
  stationId : String
  datasetId : String
  x : Option ℚ
  y : Option ℚ
  z : Option ℚ
deriving DecidableEq, Repr

structure Reg where
  projects : List String
  datasets : List String
  contributors : List String
  stations : List StationRec
  deployments : List DeploymentRec
  instruments : List InstrumentRec
  dataRecordIds : List String
deriving DecidableEq, Repr

/-- A write performed against the registry, the WAF file system or the
search index. -/
inductive Effect where
  | saveDeploymentUpdate (id : String)
  | saveNewDeployment (id : String)
  | saveInstrument (id : String)
  | saveDataRecord (id : String)
  | wafCopy
  | indexRecord (id : String)
deriving DecidableEq, Repr

/-- Whether a write is one of the deployment writes performed by the
deployment check. -/
def Effect.isDeployment : Effect → Bool
  | .saveDeploymentUpdate _ => true
  | .saveNewDeployment _ => true
  | _ => false

/-- An uncaught Python exception escaping `process_data`. -/
inductive Crash where
  | nameError
  | attributeError
  | typeError
  | keyError
deriving DecidableEq, Repr

/-- A diagnostic appended to `self.warnings` / `self.errors`:
message code and line number (the message string is a pure function of
the same data). -/
abbrev Diag := Nat × Option Int

/-- Common output of a `check_*` method: pass/fail, the (possibly
mutated) document, and the appended warnings and errors. -/
structure ChkOut where
  ok : Bool
  doc : Doc
  warns : List Diag
  errs : List Diag
deriving DecidableEq, Repr

/-- `Process.check_project` (processing.py:360-380): empty
`CONTENT.Class` defaults to `WOUDC` (warning 52); a project outside the
registry's distinct project identifiers is error 53. -/
def checkProject (reg : Reg) (d : Doc) : ChkOut :=
  let line := d.lineCONTENT + 2
  let step :=
    if d.contentClass == "" then
      ("WOUDC", { d with contentClass := "WOUDC" },
       [((52 : Nat), some line)])
    else (d.contentClass, d, [])
  if reg.projects.contains step.1 then ⟨true, step.2.1, step.2.2, []⟩
  else ⟨false, step.2.1, step.2.2, [(53, some line)]⟩

/-- `Process.check_dataset` (processing.py:382-396): error 56 when the
category is not a registered dataset. -/
def checkDataset (reg : Reg) (d : Doc) : ChkOut :=
  if reg.datasets.contains d.contentCategory then ⟨true, d, [], []⟩
  else ⟨false, d, [], [(56, some (d.lineCONTENT + 2))]⟩

/-- `Process.check_contributor` (processing.py:398-425): look up
`Agency:Class` case-insensitively; on a match the canonical agency
(identifier up to the colon) is written back, else error 127. -/
def checkContributor (reg : Reg) (d : Doc) : ChkOut :=
  let cid := d.dgAgency ++ ":" ++ d.contentClass
  match reg.contributors.find? (fun c => asciiLower c == asciiLower cid) with
  | some stored =>
      ⟨true, { d with dgAgency := (splitOnChar ':' stored).headD "" }, [], []⟩
  | none => ⟨false, d, [], [(127, some (d.lineDG + 2))]⟩

/-- `Process.check_station` (processing.py:427-502): ship `*IW`/empty
country rewritten to `XY` (warning 105); unknown station id is error
129 and returns immediately; then type (128), name (130, canonical name
written back) and country (131, canonical country written back) are all
checked. -/
def checkStation (reg : Reg) (d0 : Doc) : ChkOut :=
  let shp :=
    if d0.platformType == "SHP" &&
        (d0.platformCountry == "" || d0.platformCountry == "*IW") then
      ({ d0 with platformCountry := "XY" },
       [((105 : Nat), some (d0.linePLATFORM + 2))], "XY")
    else (d0, [], d0.platformCountry)
  let d := shp.1
  let w0 := shp.2.1
  let country0 := shp.2.2
  let line := d.linePLATFORM + 2
  match reg.stations.find? (fun r => r.identifier == d.platformID) with
  | none => ⟨false, d, w0, [(129, some line)]⟩
  | some _ =>
      let typeOk := d.platformType == "STN" || d.platformType == "SHP"
      let e1 : List Diag := if typeOk then [] else [(128, some line)]
      let nameStep :=
        match reg.stations.find? (fun r =>
            r.identifier == d.platformID &&
            asciiLower r.name == asciiLower d.platformName) with
        | some r => (true, { d with platformName := r.name }, ([] : List Diag))
        | none => (false, d, [(130, some line)])
      let d := nameStep.2.1
      let ctryStep :=
        match reg.stations.find? (fun r =>
            r.identifier == d.platformID &&
            asciiLower r.countryId == asciiLower country0) with
        | some r => (true, { d with platformCountry := r.country },
                     ([] : List Diag))
        | none => (false, d, [(131, some line)])
      ⟨typeOk && nameStep.1 && ctryStep.1, ctryStep.2.1, w0,
       e1 ++ nameStep.2.2 ++ ctryStep.2.2⟩

/-- `Process.check_deployment` (processing.py:504-528): no messages; a
found deployment whose date range does not contain `TIMESTAMP.Date` has
its range extended and is persisted (`self.registry.save()`) —
unconditionally, in verify mode as well. -/
def checkDeployment (reg : Reg) (d : Doc) : ChkOut × List Effect :=
  let depId := d.platformID ++ ":" ++ d.dgAgency ++ ":" ++ d.contentClass
  match reg.deployments.find? (fun r => r.identifier == depId) with
  | none => (⟨false, d, [], []⟩, [])
  | some dep =>
      if d.timestampDate < dep.startDate then
        (⟨true, d, [], []⟩, [.saveDeploymentUpdate depId])
      else if dep.endDate < d.timestampDate then
        (⟨true, d, [], []⟩, [.saveDeploymentUpdate depId])
      else (⟨true, d, [], []⟩, [])

/-- `Process.add_deployment` (processing.py:296-312): builds and saves a
new deployment spanning the file's date.  (Unreachable from
`process_data` in this source: the branch that would call it dereferences
the undefined locals `platform_id`, `agency`, `project` first.) -/
def addDeployment (d : Doc) : List Effect :=
  [.saveNewDeployment (d.platformID ++ ":" ++ d.dgAgency ++ ":" ++
    d.contentClass)]

/-- `Process.check_instrument` (processing.py:530-572): name and model
of `na`/`n/a`/empty are normalised to `UNKNOWN`; an `UNKNOWN` name is
error 72; otherwise the instrument is looked up with case-insensitive
name, model and serial, and on success the canonical values are written
back. -/
def checkInstrument (reg : Reg) (d0 : Doc) : ChkOut :=
  let nm0 := d0.instrName
  let md0 := d0.instrModel
  let s1 :=
    if nm0 == "" || asciiLower nm0 == "na" || asciiLower nm0 == "n/a" then
      ("UNKNOWN", { d0 with instrName := "UNKNOWN" })
    else (nm0, d0)
  let s2 :=
    if md0 == "" || asciiLower md0 == "na" || asciiLower md0 == "n/a" then
      ("UNKNOWN", { s1.2 with instrModel := "UNKNOWN" })
    else (md0, s1.2)
  let name := s1.1
  let model := s2.1
  let d := s2.2
  let line := d.lineINSTRUMENT + 2
  if name == "UNKNOWN" then ⟨false, d, [], [(72, some line)]⟩
  else
    match reg.instruments.find? (fun r =>
        asciiLower r.name == asciiLower name &&
        asciiLower r.model == asciiLower model &&
        asciiLower r.serial == asciiLower d.instrNumber &&
        r.stationId == d.platformID &&
        r.datasetId == d.contentCategory) with
    | none => ⟨false, d, [], []⟩
    | some r =>
        ⟨true,
         { d with instrName := r.name, instrModel := r.model,
                  instrNumber := r.serial }, [], []⟩

/-- `Process.add_instrument` (processing.py:314-358): look up the
name/model/station/dataset tuple (case-insensitive name and model); on
a match write the canonical name and model back and, **unless in
verify mode**, save an instrument with the new serial. -/
def addInstrument (verifyOnly : Bool) (reg : Reg) (d : Doc) :
    Bool × Doc × List Effect :=
  let instrId := joinWith ":"
    [d.instrName, d.instrModel, d.instrNumber, d.platformID,
     d.contentCategory]
  match reg.instruments.find? (fun r =>
      asciiLower r.name == asciiLower d.instrName &&
      asciiLower r.model == asciiLower d.instrModel &&
      r.stationId == d.platformID &&
      r.datasetId == d.contentCategory) with
  | some r =>
      let d2 := { d with instrName := r.name, instrModel := r.model }
      if verifyOnly then (true, d2, [])
      else (true, d2, [.saveInstrument instrId])
  | none => (false, d, [])

/-- Result of the location check: pass/fail and the appended
diagnostics (the check never mutates the document). -/
structure LocOut where
  ok : Bool
  warns : List Diag
  errs : List Diag
deriving DecidableEq, Repr

/-- An exception escaping the location check, with the diagnostics
appended before the crash. -/
structure LocErr where
  crash : Crash
  warns : List Diag
  errs : List Diag
deriving DecidableEq, Repr

/-- An exception escaping the content or data-generation check, with
the document state and the diagnostics appended before the crash. -/
structure MutErr where
  crash : Crash
  doc : Doc
  warns : List Diag
  errs : List Diag
deriving DecidableEq, Repr

/-- `Process.check_location` (processing.py:574-649).  Latitude and
longitude outside `[-90,90]` / `[-180,180]` warn 76; a `ValueError`
from `float` is error 75.  A non-numeric *height* hits the
`self.warning.append` typo: `Process` has no attribute `warning`, so an
`AttributeError` escapes, recording nothing.  When an instrument id is
supplied and found, each eagerly-built `all([...])` list subtracts a
possibly-`None` coordinate, raising `TypeError` whenever either side is
`None`; a found mismatch of at least one degree is error 77 for
latitude/longitude and warning 77 for height.  Returns
`all([lat_ok, lon_ok])`. -/
def checkLocation (instrumentId : Option String) (reg : Reg) (d : Doc) :
    Except LocErr LocOut :=
  let line := d.lineLOCATION + 2
  match pyFloat d.locLat with
  | .error .typeErr => .error ⟨.typeError, [], []⟩
  | latRes =>
    let lat : Option ℚ × Bool × List Diag × List Diag :=
      match latRes with
      | .ok q =>
          (some q,
           true,
           if !(qle (-90) q && qle q 90) then [(76, some line)] else [],
           [])
      | .error _ => (none, false, [], [(75, some line)])
    match pyFloat d.locLon with
    | .error .typeErr => .error ⟨.typeError, lat.2.2.1, lat.2.2.2⟩
    | lonRes =>
      let lon : Option ℚ × Bool × List Diag × List Diag :=
        match lonRes with
        | .ok q =>
            (some q,
             true,
             if !(qle (-180) q && qle q 180) then [(76, some line)] else [],
             [])
        | .error _ => (none, false, [], [(75, some line)])
      let w01 := lat.2.2.1 ++ lon.2.2.1
      let e01 := lat.2.2.2 ++ lon.2.2.2
      let hres : Except Crash (Option ℚ × List Diag) :=
        if !pyTruthy d.locHeight then .ok (none, [])
        else
          match pyFloat d.locHeight with
          | .ok q =>
              .ok (some q,
                if !(qle (-50) q && qle q 5100) then [(76, some line)] else [])
          | .error .valueErr => .error .attributeError
          | .error .typeErr => .error .typeError
      match hres with
      | .error c => .error ⟨c, w01, e01⟩
      | .ok hOut =>
        let w02 := w01 ++ hOut.2
        match instrumentId with
        | none => .ok ⟨lat.2.1 && lon.2.1, w02, e01⟩
        | some iid =>
          match reg.instruments.find? (fun r => r.identifier == iid) with
          | none => .ok ⟨true, w02, e01⟩
          | some inst =>
            match lat.1, inst.y with
            | some a, some b =>
              let latStep : Bool × List Diag :=
                if qAbsDiffGe1 a b then (false, [(77, some line)])
                else (lat.2.1, [])
              match lon.1, inst.x with
              | some a2, some b2 =>
                let lonStep : Bool × List Diag :=
                  if qAbsDiffGe1 a2 b2 then (false, [(77, some line)])
                  else (lon.2.1, [])
                match hOut.1, inst.z with
                | some a3, some b3 =>
                  let hStep : List Diag :=
                    if qAbsDiffGe1 a3 b3 then [(77, some line)] else []
                  .ok ⟨latStep.1 && lonStep.1, w02 ++ hStep,
                       e01 ++ latStep.2 ++ lonStep.2⟩
                | _, _ =>
                    .error ⟨.typeError, w02,
                      e01 ++ latStep.2 ++ lonStep.2⟩
              | _, _ => .error ⟨.typeError, w02, e01 ++ latStep.2⟩
            | _, _ => .error ⟨.typeError, w02, e01⟩

/-- `Process.check_content_consistency` (processing.py:696-749).  An
empty level defaults to 2.0 for `UmkehrN14` with a `C_PROFILE` table
(warning 59) or 1.0 otherwise (warning 58); a non-float level is
repaired via `float` (warning 57) or reported (error 60); the level is
then looked up among the level keys of the dataset's schema — a
`KeyError` escapes for an unknown category — with a miss giving error
60.  A non-int form is repaired via `int` (warning 61) or reported
(error 62); `int(None)` raises `TypeError`, which the source does not
catch. -/
def checkContent (datasetLevels : String → Option (List PyVal)) (d0 : Doc) :
    Except MutErr ChkOut :=
  let line := d0.lineCONTENT + 2
  let lvlStep : Except Crash ChkOut :=
    if !pyTruthy d0.contentLevel then
      if d0.contentCategory == "UmkehrN14" && d0.hasCProfile then
        .ok ⟨true, { d0 with contentLevel := .float 2 },
             [(59, some line)], []⟩
      else
        .ok ⟨true, { d0 with contentLevel := .float 1 },
             [(58, some line)], []⟩
    else if !d0.contentLevel.isFloatVal then
      match pyFloat d0.contentLevel with
      | .ok q => .ok ⟨true, { d0 with contentLevel := .float q },
                      [(57, some line)], []⟩
      | .error .valueErr => .ok ⟨false, d0, [], [(60, some line)]⟩
      | .error .typeErr => .error .typeError
    else .ok ⟨true, d0, [], []⟩
  match lvlStep with
  | .error c => .error ⟨c, d0, [], []⟩
  | .ok step1 =>
    let d1 := step1.doc
    match datasetLevels d1.contentCategory with
    | none => .error ⟨.keyError, d1, step1.warns, step1.errs⟩
    | some levels =>
      let memStep : Bool × List Diag :=
        if levels.any (fun k => pyEq d1.contentLevel k) then (step1.ok, [])
        else (false, [(60, some line)])
      let levelOk := memStep.1
      let e2 := step1.errs ++ memStep.2
      let formStep : Except Crash ChkOut :=
        if !d1.contentForm.isIntVal then
          match pyInt d1.contentForm with
          | .ok n => .ok ⟨true, { d1 with contentForm := .int n },
                          [(61, some line)], []⟩
          | .error .valueErr => .ok ⟨false, d1, [], [(62, some line)]⟩
          | .error .typeErr => .error .typeError
        else .ok ⟨true, d1, [], []⟩
      match formStep with
      | .error c => .error ⟨c, d1, step1.warns, e2⟩
      | .ok step2 =>
          .ok ⟨levelOk && step2.ok, step2.doc, step1.warns ++ step2.warns,
               e2 ++ step2.errs⟩

/-- `Process.check_data_generation_consistency` (processing.py:751-787).
An empty date defaults to the processing start date (warning 63, at the
`DATA_GENERATION` header line, no `+2` in the source); `float(version)`
raising `ValueError` is error 68 and fails the check, while a `None`
version raises an uncaught `TypeError`; a numeric version outside
`[0, 20]` warns 66, and a version printing like its integer truncation
is normalised to one decimal place (warning 67). -/
def checkDG (processStart : Int) (d0 : Doc) :
    Except MutErr ChkOut :=
  let line := d0.lineDG
  let dateStep :=
    if !pyTruthy d0.dgDate then
      ({ d0 with dgDate := .date processStart },
       [((63 : Nat), some line)])
    else (d0, [])
  let d1 := dateStep.1
  let w0 := dateStep.2
  match pyFloat d1.dgVersion with
  | .error .typeErr => .error ⟨.typeError, d1, w0, []⟩
  | .error .valueErr => .ok ⟨false, d1, w0, [(68, some line)]⟩
  | .ok nv =>
      let w1 := if !(qle 0 nv && qle nv 20) then [((66 : Nat), some line)] else []
      let decStep :=
        if pyStrOf d1.dgVersion == pyStrOf (.int (truncRat nv)) then
          ({ d1 with dgVersion := .float nv }, [((67 : Nat), some line)])
        else (d1, [])
      .ok ⟨true, decStep.1, w0 ++ w1 ++ decStep.2, []⟩

/-! ### `Process.process_data` (processing.py:89-294)

The method is assembled from three contiguous regions of the source:

* `preChecks`    — lines 169-179: project, dataset, contributor,
  station and deployment checks;
* `instrumentPhase` — lines 209-240: the instrument check, the
  leading-zero-stripped retry, and `add_instrument` with its 201/139
  messages;
* `afterDeployment` — lines 209-294: instrument phase, location,
  content and data-generation checks, the all-checks gate, the
  duplicate-identifier gate, the verify-only early return, and the
  persistence tail (registry save, WAF copy, conditional indexing).

The deployment block at lines 180-207 dereferences the undefined local
variables `platform_id`, `agency`, `project`, so a missing deployment
raises `NameError` before `add_deployment` can ever run; the block is
embedded as that crash.

The earlier phase (file detection, reading, parsing, metadata
validation, lines 100-145) performs no writes and appends nothing to
`self.warnings`/`self.errors`; its outcome is the `parsed` input of
`Env`.  `DataRecord` and the search index live outside the source tree
and enter as the abstract functions of `Env`. -/

inductive POutcome where
  | ret (b : Bool)
  | crash (c : Crash)
deriving DecidableEq, Repr

structure PRes where
  outcome : POutcome
  warnings : List Diag
  errors : List Diag
  writes : List Effect
deriving DecidableEq, Repr

structure Env where
  reg : Reg
  parsed : Option Doc
  datasetLevels : String → Option (List PyVal)
  processStart : Int
  recordId : Doc → String
  recordEsId : Doc → String
  recordVersion : Doc → ℚ
  searchVersion : String → Option ℚ

structure PreOut where
  ok1 : Bool
  ok2 : Bool
  ok3 : Bool
  ok4 : Bool
  ok5 : Bool
  doc : Doc
  warns : List Diag
  errs : List Diag
  writes : List Effect
deriving DecidableEq, Repr

/-- Lines 169-179 of `process_data`: the five cross-reference checks up
to and including the deployment check, with their appended messages and
the deployment check's writes. -/
def preChecks (reg : Reg) (doc0 : Doc) : PreOut :=
  let c1 := checkProject reg doc0
  let c2 := checkDataset reg c1.doc
  let c3 := checkContributor reg c2.doc
  let c4 := checkStation reg c3.doc
  let c5 := checkDeployment reg c4.doc
  { ok1 := c1.ok, ok2 := c2.ok, ok3 := c3.ok, ok4 := c4.ok,
    ok5 := c5.1.ok, doc := c5.1.doc,
    warns := c1.warns ++ c2.warns ++ c3.warns ++ c4.warns ++ c5.1.warns,
    errs := c1.errs ++ c2.errs ++ c3.errs ++ c4.errs ++ c5.1.errs,
    writes := c5.2 }

structure InstrOut where
  ok : Bool
  doc : Doc
  warns : List Diag
  errs : List Diag
  writes : List Effect
deriving DecidableEq, Repr

/-- Lines 209-240 of `process_data`: `check_instrument`, the retry with
the serial's leading zeros stripped, and on a second miss the restore
of the serial plus `add_instrument(verify_only)` with warning 201 /
error 139. -/
def instrumentPhase (verifyOnly : Bool) (reg : Reg) (d0 : Doc) : InstrOut :=
  let r1 := checkInstrument reg d0
  if r1.ok then ⟨true, r1.doc, r1.warns, r1.errs, []⟩
  else
    let oldSerial := r1.doc.instrNumber
    let d2 := { r1.doc with instrNumber := lstripChar oldSerial '0' }
    let r2 := checkInstrument reg d2
    if r2.ok then
      ⟨true, r2.doc, r1.warns ++ r2.warns, r1.errs ++ r2.errs, []⟩
    else
      let d3 := { r2.doc with instrNumber := oldSerial }
      let ai := addInstrument verifyOnly reg d3
      if ai.1 then
        ⟨true, ai.2.1, r1.warns ++ r2.warns ++ [(201, none)],
         r1.errs ++ r2.errs, ai.2.2⟩
      else
        ⟨false, ai.2.1, r1.warns ++ r2.warns,
         r1.errs ++ r2.errs ++ [(139, some (ai.2.1.lineINSTRUMENT + 2))],
         ai.2.2⟩

/-- Lines 209-294 of `process_data`: everything after the deployment
block.  `p` carries the state accumulated by `preChecks`. -/
def afterDeployment (verifyOnly : Bool) (env : Env) (p : PreOut) : PRes :=
  let i := instrumentPhase verifyOnly env.reg p.doc
  let warns1 := p.warns ++ i.warns
  let errs1 := p.errs ++ i.errs
  let wr1 := p.writes ++ i.writes
  let instrumentId :=
    if i.ok then
      some (joinWith ":"
        [i.doc.instrName, i.doc.instrModel, i.doc.instrNumber,
         i.doc.platformID, i.doc.contentCategory])
    else none
  match checkLocation instrumentId env.reg i.doc with
  | .error cL => ⟨.crash cL.crash, warns1 ++ cL.warns, errs1 ++ cL.errs, wr1⟩
  | .ok okL =>
    let wL := okL.warns
    let eL := okL.errs
    match checkContent env.datasetLevels i.doc with
    | .error cC =>
        ⟨.crash cC.crash, warns1 ++ wL ++ cC.warns, errs1 ++ eL ++ cC.errs,
         wr1⟩
    | .ok okC =>
      let wC := okC.warns
      let eC := okC.errs
      match checkDG env.processStart okC.doc with
      | .error cG =>
          ⟨.crash cG.crash, warns1 ++ wL ++ wC ++ cG.warns,
           errs1 ++ eL ++ eC ++ cG.errs, wr1⟩
      | .ok okG =>
        let d8 := okG.doc
        let warnsAll := warns1 ++ wL ++ wC ++ okG.warns
        let errsAll := errs1 ++ eL ++ eC ++ okG.errs
        if !(p.ok1 && p.ok2 && p.ok3 && p.ok4 && p.ok5 && i.ok && okL.ok &&
             okC.ok && okG.ok) then
          ⟨.ret false, warnsAll, errsAll, wr1⟩
        else
          let rid := env.recordId d8
          if env.reg.dataRecordIds.contains rid then
            ⟨.ret false, warnsAll, errsAll, wr1⟩
          else if verifyOnly then
            ⟨.ret true, warnsAll, errsAll, wr1⟩
          else
            let tail :=
              [Effect.saveDataRecord rid, Effect.wafCopy] ++
                (match env.searchVersion (env.recordEsId d8) with
                 | some v =>
                     if qlt v (env.recordVersion d8) then [Effect.indexRecord rid]
                     else []
                 | none => [Effect.indexRecord rid])
            ⟨.ret true, warnsAll, errsAll, wr1 ++ tail⟩

/-- `Process.process_data` (processing.py:89-294).  A detection, read,
parse or metadata-validation failure returns `False` with no appended
diagnostics and no writes; a missing deployment raises `NameError`
(lines 180-181) with the pre-check state retained; otherwise the run
continues through `afterDeployment`.  The `bypass` flag is only read
inside the dead deployment block and therefore never influences the
result. -/
def processData (verifyOnly bypass : Bool) (env : Env) : PRes :=
  match env.parsed with
  | none => ⟨.ret false, [], [], []⟩
  | some doc0 =>
      let p := preChecks env.reg doc0
      if !p.ok5 then ⟨.crash .nameError, p.warns, p.errs, p.writes⟩
      else afterDeployment verifyOnly env p

/-! ### Concrete instances used by the counterexamples and witnesses -/

/-- A severity table on which no code is severe. -/
def sevNone : Nat → Bool := fun _ => false

/-- A severity table on which exactly code 25 is severe, as the
specification declares it. -/
def sev25 : Nat → Bool := fun c => c == 25

/-- A three-line Extended CSV input: one `#CONTENT` table with two
fields and one value row. -/
def rowsC2 : List (List String) :=
  [["#CONTENT"], ["Class", "Category"], ["WOUDC", "TotalOzone"]]

/-- The document `rowsC2` parses to. -/
def docC2 : ECSV :=
  ⟨[("CONTENT", [("Class", ["WOUDC"]), ("Category", ["TotalOzone"])])],
   [("CONTENT", 1)], [("CONTENT", 1)]⟩

/-- Two `#T` headers in a row: instance names `T` and `T_2`. -/
def opsC7 : List (String × List String × Nat) :=
  [("T", (["F"], 1)), ("T", (["F"], 5))]

/-- The `#LOCATION` table of the specification's ragged-row scenario,
with empty columns. -/
def eLocC8 : ECSV :=
  ⟨[("LOCATION", [("Latitude", []), ("Longitude", []), ("Height", [])])],
   [("LOCATION", 1)], [("LOCATION", 1)]⟩

def tblLocC8 : Table := [("Latitude", []), ("Longitude", []), ("Height", [])]

/-- The ragged data row `43.78,-79.47,198,extra`. -/
def valsC8 : List String := ["43.78", "-79.47", "198", "extra"]

/-- A version-keyed schema leaf with two versions, each with one unique
table beside the shared `data_table` key. -/
def schemaA : List (String × List String) :=
  [("1", ["GLOBAL", "data_table"]), ("2", ["GLOBAL_SUMMARY", "data_table"])]

/-- A degenerate version-keyed leaf: two versions with identical table
sets, so neither has a unique table. -/
def schemaC6 : List (String × List String) :=
  [("1", ["TA", "TB"]), ("2", ["TA", "TB"])]

/-- Two loaded error definitions: a severe one and a warning. -/
def defsC10 : List (Nat × String × List TPart) :=
  [(25, ("Error", [TPart.lit "ragged row"])),
   (14, ("Warning", [TPart.lit "excess line"]))]

/-- Metadata of a cleanly-processed file. -/
def metaC3 : DocMeta := ⟨"STN", "077", "TotalOzone", "1.0", "1", "MSC"⟩

def recC3 : RecMeta := ⟨"/waf/x.csv", "urn-x"⟩

/-- A parsed, validated document whose registry deployment exists but
whose date range starts after the file's `TIMESTAMP.Date`. -/
def docC1 : Doc :=
  { contentClass := "WOUDC", contentCategory := "TotalOzone",
    contentLevel := .float 1, contentForm := .int 1,
    dgAgency := "MSC", dgDate := .date 10, dgVersion := .float 1,
    platformID := "077", platformType := "STN", platformName := "Toronto",
    platformCountry := "CAN", instrName := "Brewer", instrModel := "MkIV",
    instrNumber := "137", locLat := .float 43, locLon := .float (-79),
    locHeight := .null, timestampDate := 100, hasCProfile := false,
    lineCONTENT := 1, linePLATFORM := 5, lineINSTRUMENT := 9,
    lineLOCATION := 13, lineDG := 17, lineTIMESTAMP := 21 }

/-- A registry state holding exactly the deployment of `docC1`, with
`start_date = 200 > 100`, so the deployment check persists a date
extension. -/
def envC1 : Env :=
  { reg := { projects := [], datasets := [], contributors := [],
             stations := [],
             deployments := [⟨"077:MSC:WOUDC", 200, 300⟩],
             instruments := [], dataRecordIds := [] },
    parsed := some docC1,
    datasetLevels := fun _ => some [.float 1],
    processStart := 50,
    recordId := fun _ => "urn-1", recordEsId := fun _ => "es-1",
    recordVersion := fun _ => 1, searchVersion := fun _ => none }

/-- An empty registry, for the location check (no instrument given). -/
def regC9 : Reg := ⟨[], [], [], [], [], [], []⟩

/-- `docC1` with the `LOCATION` fields replaced. -/
def docLoc (lat lon h : PyVal) : Doc :=
  { docC1 with locLat := lat, locLon := lon, locHeight := h }

/-! ## Theorems -/

/-- Claim C4, counterexample: the purely-zero offset `+00` is matched by
the main UTC-offset template, so `parse_utcoffset` emits message 43
twice (missing minute, missing second) and never message 46, while
still returning the normalised `+00:00:00`.  The claim asserts warning
46 for this input. -/
theorem c4_counterexample :
    parseUTCOffset sevNone "+00" = (some "+00:00:00", [43, 43]) ∧
    ¬ 46 ∈ (parseUTCOffset sevNone "+00").2 := by
  constructor
  · rfl
  · decide

/-- Claim C4, amended: every purely-zero offset normalises to
`+00:00:00`, but the message emitted depends on the shape: forms
matched by the general `(+|-)HH[:MM[:SS]]` template get the
padding/sign messages 42/43/45 as applicable, and message 46 is
reserved for zero offsets that fail that template (such as `000`). -/
theorem c4_amended :
    parseUTCOffset sevNone "+00" = (some "+00:00:00", [43, 43]) ∧
    parseUTCOffset sevNone "00:00" = (some "+00:00:00", [43, 45]) ∧
    parseUTCOffset sevNone "0" = (some "+00:00:00", [42, 43, 43, 45]) ∧
    parseUTCOffset sevNone "-0:0:0" = (some "+00:00:00", [42, 42, 42, 45]) ∧
    parseUTCOffset sevNone "000" = (some "+00:00:00", [46]) := by
  refine ⟨rfl, rfl, rfl, rfl, rfl⟩

/-- Claim C9: the latitude/longitude/height range checks behave as
specified — boundary values `-90` and `90` pass with no diagnostics,
`90.0000001` warns 76, an out-of-range longitude warns 76, a
non-numeric latitude is error 75, an in-range height passes — but a
non-numeric *height* hits the `self.warning.append` typo in
`check_location` and raises `AttributeError`, recording no message at
all instead of the claimed error 75. -/
theorem c9_location_eval :
    checkLocation none regC9 (docLoc (.float (-90)) (.float 180) .null) =
      .ok ⟨true, [], []⟩ ∧
    checkLocation none regC9 (docLoc (.float 90) (.float (-180)) .null) =
      .ok ⟨true, [], []⟩ ∧
    checkLocation none regC9
        (docLoc (.float (mkRat 900000001 10000000)) (.float 0) .null) =
      .ok ⟨true, [(76, some 15)], []⟩ ∧
    checkLocation none regC9 (docLoc (.float 0) (.float 200) .null) =
      .ok ⟨true, [(76, some 15)], []⟩ ∧
    checkLocation none regC9 (docLoc (.str "abc") (.float 0) .null) =
      .ok ⟨false, [], [(75, some 15)]⟩ ∧
    checkLocation none regC9
        (docLoc (.float (mkRat 2189 50)) (.float (mkRat (-7947) 100))
          (.str "198")) =
      .ok ⟨true, [], []⟩ ∧
    checkLocation none regC9
        (docLoc (.float (mkRat 2189 50)) (.float (mkRat (-7947) 100))
          (.str "abc")) =
      .error ⟨.attributeError, [], []⟩ := by
  refine ⟨by decide, by decide, by decide, by decide, by decide, by decide,
    by decide⟩

/-- Claim C1, counterexample: in verify-only mode, with a registry whose
matching deployment starts after the file's `TIMESTAMP.Date`, the
deployment check still persists the extended date range — a registry
write — contradicting the claim that a verify-only run performs no
writes. -/
theorem c1_counterexample :
    (processData true false envC1).writes =
      [Effect.saveDeploymentUpdate "077:MSC:WOUDC"] ∧
    (processData true false envC1).writes ≠ [] := by
  constructor
  · rfl
  · decide

/-- Claim C6: the version-scoring computation divides by the number of
unique tables of each version, so it is total exactly when every
version has at least one table unique to it; under that precondition
the `ZeroDivisionError` outcome is unreachable, and for a schema in
which two versions share identical table sets the computation raises
`ZeroDivisionError`. -/
theorem c6_unique_table_totality :
    (∀ schema docTables,
        (∀ v ∈ schema.map Prod.fst, uniqueTables schema v ≠ []) →
        determineVersion schema docTables ≠ .error .zeroDivision) ∧
    determineVersion schemaC6 ["TA"] = .error .zeroDivision := by
  constructor
  · intro schema docTables h
    unfold determineVersion
    have hany : (schema.map Prod.fst).any
        (fun v => (uniqueTables schema v).isEmpty) = false := by
      rw [List.any_eq_false]
      intro v hv
      simpa [List.isEmpty_iff] using h v hv
    simp only [hany, Bool.false_eq_true, if_false]
    split
    · simp
    · split
      · simp
      · split <;> simp
  · decide

/-- Witness for C6: the nonempty-uniques precondition holds concretely for
`schemaA`, and on it `_determine_version` indeed avoids `ZeroDivisionError`. -/
theorem c6_witness :
    (∀ v ∈ schemaA.map Prod.fst, uniqueTables schemaA v ≠ []) ∧
    determineVersion schemaA ["GLOBAL"] ≠ .error .zeroDivision :=
  ⟨by decide, c6_unique_table_totality.1 schemaA ["GLOBAL"] (by decide)⟩

/-- Claim C10: `add_message` raises (`ValueError`, modelled `.error ()`)
for a code absent from the loaded error definitions, recording nothing;
for a known code whose template formats, it appends the line, code,
class and formatted message to the batch columns and returns the
message with a severity flag computed as `class != 'Warning'`, which —
given the specification's severity domain `{Warning, Error}` — is true
exactly when the configured severity is `Error`. -/
theorem c10_add_message (defs : List (Nat × String × List TPart))
    (code : Nat) (line : Option Int) (kwargs : List (String × String))
    (b : Batch) :
    (List.lookup code defs = none →
      addMessage defs code line kwargs b = .error ()) ∧
    (∀ cls tpl, List.lookup code defs = some (cls, tpl) →
      (cls = "Warning" ∨ cls = "Error") →
      ∀ message, formatTemplate tpl kwargs = .ok message →
        addMessage defs code line kwargs b =
          .ok ((message, cls == "Error"),
            { b with
              lineNum := b.lineNum ++ [line]
              errCode := b.errCode ++ [code]
              errType := b.errType ++ [cls]
              messages := b.messages ++ [message] })) := by
  constructor
  · intro h
    unfold addMessage
    rw [h]
  · intro cls tpl hlook hdom message hfmt
    unfold addMessage
    rw [hlook]
    simp only []
    rw [hfmt]
    rcases hdom with h | h <;> subst h <;> rfl

/-- Claim C10 witness: on a concrete two-entry definition table, a
known severe code records and returns `severe = true`, and an unknown
code raises. -/
theorem c10_witness :
    addMessage defsC10 25 (some 7) [] emptyBatch =
      .ok (("ragged row", true),
        { emptyBatch with
          lineNum := [some 7], errCode := [25], errType := ["Error"],
          messages := ["ragged row"] }) ∧
    addMessage defsC10 99 none [] emptyBatch = .error () := by
  constructor
  · have h := (c10_add_message defsC10 25 (some 7) [] emptyBatch).2
      "Error" [TPart.lit "ragged row"] rfl (Or.inr rfl) "ragged row" rfl
    simpa using h
  · exact (c10_add_message defsC10 99 none [] emptyBatch).1 rfl

/-- The metadata loader never touches the message columns. -/
theorem loadProcessingResults_messages (f c : String) (m : Option DocMeta)
    (r : Option RecMeta) (b : Batch) :
    (loadProcessingResults f c m r b).messages = b.messages := by
  unfold loadProcessingResults
  cases m <;> cases r <;> rfl

/-- Claim C3, counterexample: a cleanly-processed passing file with no
diagnostics contributes zero rows to the operator report, not the one
row with an empty message field that the claim asserts. -/
theorem c3_counterexample :
    recordPassingRows "incoming/x.csv" metaC3 recC3 emptyBatch = [] := rfl

/-- Claim C3, amended: a processed file that produced no diagnostics
contributes no rows at all to the operator report, whether it passed
(`record_passing_file`, status `P`) or failed (`record_failing_file`,
status `F`): `write_operator_report` writes one row per entry of the
zipped message columns, which is empty. -/
theorem c3_amended (filepath contributor : String) (meta : DocMeta)
    (rec : RecMeta) (b : Batch) (h : b.messages = []) :
    recordPassingRows filepath meta rec b = [] ∧
    recordFailingRows filepath contributor (some meta) b = [] := by
  unfold recordPassingRows recordFailingRows writeOperatorReportRows
  constructor <;>
    simp [loadProcessingResults_messages, h, List.zip_nil_right]

/-- Claim C3 witness: the amended statement applied to the empty
batch. -/
theorem c3_witness :
    recordPassingRows "a.csv" metaC3 recC3 emptyBatch = [] ∧
    recordFailingRows "a.csv" "MSC" (some metaC3) emptyBatch = [] :=
  c3_amended "a.csv" "MSC" metaC3 recC3 emptyBatch rfl

/-! ### Association-list lemmas -/

theorem mem_alistReplace {α : Type} {p : String × α} {k : String} {v : α} :
    ∀ {l : List (String × α)}, p ∈ alistReplace k v l → p = (k, v) ∨ p ∈ l := by
  intro l
  induction l with
  | nil => intro h; simp [alistReplace] at h; exact Or.inl h
  | cons q rest ih =>
      intro h
      unfold alistReplace at h
      split at h
      · rcases List.mem_cons.1 h with h1 | h1
        · exact Or.inl h1
        · exact Or.inr (List.mem_cons_of_mem _ h1)
      · rcases List.mem_cons.1 h with h1 | h1
        · exact Or.inr (h1 ▸ List.mem_cons_self _ _)
        · rcases ih h1 with h2 | h2
          · exact Or.inl h2
          · exact Or.inr (List.mem_cons_of_mem _ h2)

theorem self_mem_alistReplace {α : Type} (k : String) (v : α) :
    ∀ (l : List (String × α)), (k, v) ∈ alistReplace k v l := by
  intro l
  induction l with
  | nil => simp [alistReplace]
  | cons q rest ih =>
      unfold alistReplace
      split
      · exact List.mem_cons_self _ _
      · exact List.mem_cons_of_mem _ ih

theorem lookup_alistReplace_self {α : Type} (k : String) (v : α) :
    ∀ (l : List (String × α)), List.lookup k (alistReplace k v l) = some v := by
  intro l
  induction l with
  | nil => simp [alistReplace, List.lookup]
  | cons q rest ih =>
      unfold alistReplace
      split
      · rw [List.lookup]
        simp
      · next hne =>
          rw [List.lookup]
          have : (k == q.1) = false := by
            apply beq_eq_false_iff_ne.2
            intro hc
            exact absurd (by simp [hc] : (q.1 == k) = true) (by simpa using hne)
          rw [this]
          exact ih

theorem mem_alistReplace_of_mem {α : Type} {p : String × α} {k : String}
    {v : α} : ∀ {l : List (String × α)}, p ∈ l →
    p.1 = k ∨ p ∈ alistReplace k v l := by
  intro l
  induction l with
  | nil => intro h; cases h
  | cons q rest ih =>
      intro h
      unfold alistReplace
      split
      · next heq =>
          rcases List.mem_cons.1 h with h1 | h1
          · exact Or.inl (by rw [h1]; exact eq_of_beq heq)
          · exact Or.inr (List.mem_cons_of_mem _ h1)
      · rcases List.mem_cons.1 h with h1 | h1
        · exact Or.inr (h1 ▸ List.mem_cons_self _ _)
        · rcases ih h1 with h2 | h2
          · exact Or.inl h2
          · exact Or.inr (List.mem_cons_of_mem _ h2)

theorem lookup_mem {α : Type} {k : String} {v : α} :
    ∀ {l : List (String × α)}, List.lookup k l = some v → (k, v) ∈ l := by
  intro l
  induction l with
  | nil => intro h; cases h
  | cons q rest ih =>
      intro h
      rw [List.lookup] at h
      split at h
      · next heq =>
          cases h
          exact (eq_of_beq heq) ▸ List.mem_cons_self _ _
      · exact List.mem_cons_of_mem _ (ih h)

theorem lookup_none_not_mem {α : Type} {k : String} {v : α} :
    ∀ {l : List (String × α)}, List.lookup k l = none → (k, v) ∉ l := by
  intro l
  induction l with
  | nil => intro _ h; cases h
  | cons q rest ih =>
      intro h hmem
      rw [List.lookup] at h
      split at h
      · cases h
      · next hne =>
          rcases List.mem_cons.1 hmem with h1 | h1
          · apply absurd hne
            rw [← h1]
            simp
          · exact ih h h1

theorem keys_alistReplace {α : Type} (k : String) (v : α) :
    ∀ (l : List (String × α)) (nm : String),
      nm ∈ (alistReplace k v l).map Prod.fst ↔
        nm = k ∨ nm ∈ l.map Prod.fst := by
  intro l
  induction l with
  | nil => intro nm; simp [alistReplace]
  | cons q rest ih =>
      intro nm
      unfold alistReplace
      split
      · next heq =>
          simp only [List.map_cons, List.mem_cons]
          constructor
          · rintro (h | h)
            · exact Or.inl h
            · exact Or.inr (Or.inr h)
          · rintro (h | h | h)
            · exact Or.inl h
            · exact Or.inl (h.trans (eq_of_beq heq))
            · exact Or.inr h
      · simp only [List.map_cons, List.mem_cons, ih]
        tauto

theorem keys_alistReplace_of_lookup {α : Type} {k : String} {v w : α} :
    ∀ {l : List (String × α)}, List.lookup k l = some w →
      (alistReplace k v l).map Prod.fst = l.map Prod.fst := by
  intro l
  induction l with
  | nil => intro h; cases h
  | cons q rest ih =>
      intro h
      rw [List.lookup] at h
      unfold alistReplace
      by_cases hq : q.1 = k
      · rw [if_pos (by simp [hq])]
        simp [hq]
      · rw [if_neg (by simpa using hq)]
        have hk : (k == q.1) = false :=
          beq_eq_false_iff_ne.2 (fun hc => hq hc.symm)
        rw [hk] at h
        simp [ih h]

theorem nodup_keys_alistReplace {α : Type} (k : String) (v : α) :
    ∀ (l : List (String × α)), (l.map Prod.fst).Nodup →
      ((alistReplace k v l).map Prod.fst).Nodup := by
  intro l
  induction l with
  | nil => intro _; simp [alistReplace]
  | cons q rest ih =>
      intro h
      simp only [List.map_cons, List.nodup_cons] at h
      unfold alistReplace
      split
      · next heq =>
          simp only [List.map_cons, List.nodup_cons]
          exact ⟨by rw [← eq_of_beq heq]; exact h.1, h.2⟩
      · next hne =>
          simp only [List.map_cons, List.nodup_cons]
          refine ⟨?_, ih h.2⟩
          intro hmem
          rcases (keys_alistReplace k v rest q.1).1 hmem with h1 | h1
          · exact absurd (by simp [h1] : (q.1 == k) = true) (by simpa using hne)
          · exact h.1 h1

theorem lookup_of_mem_nodup {α : Type} :
    ∀ {l : List (String × α)}, (l.map Prod.fst).Nodup →
      ∀ {p : String × α}, p ∈ l → List.lookup p.1 l = some p.2 := by
  intro l
  induction l with
  | nil => intro _ p h; cases h
  | cons q rest ih =>
      intro h p hp
      simp only [List.map_cons, List.nodup_cons] at h
      rcases List.mem_cons.1 hp with h1 | h1
      · subst h1
        rw [List.lookup]
        simp
      · rw [List.lookup]
        have hne : (p.1 == q.1) = false := by
          apply beq_eq_false_iff_ne.2
          intro hc
          exact h.1 (hc ▸ List.mem_map_of_mem Prod.fst h1)
        rw [hne]
        exact ih h.2 h1

/-! ### Claim C2: equal column lengths -/

/-- The fresh table built by `init_table` has only empty columns. -/
theorem emptyCols_mem (fields : List String) :
    ∀ (acc : List (String × Col)), (∀ p ∈ acc, p.2 = ([] : Col)) →
      ∀ p ∈ fields.foldl
        (fun acc f => alistReplace (pyStrip f) ([] : Col) acc) acc,
        p.2 = ([] : Col) := by
  induction fields with
  | nil => intro acc hacc p hp; exact hacc p hp
  | cons f rest ih =>
      intro acc hacc p hp
      refine ih _ ?_ p hp
      intro q hq
      rcases mem_alistReplace hq with h1 | h1
      · rw [h1]
      · exact hacc q h1

/-- `add_values_to_table` appends exactly one entry to every column, so
it preserves equal column lengths. -/
theorem uniformTable_appendRow (tbl : Table) (padded : List String)
    (h : uniformTable tbl) : uniformTable (appendRow tbl padded) := by
  intro c1 h1 c2 h2
  unfold appendRow at h1 h2
  obtain ⟨q1, hq1, rfl⟩ := List.mem_map.1 h1
  obtain ⟨q2, hq2, rfl⟩ := List.mem_map.1 h2
  obtain ⟨a1, b1⟩ := q1
  obtain ⟨a2, b2⟩ := q2
  have m1 := (List.of_mem_zip hq1).1
  have m2 := (List.of_mem_zip hq2).1
  simp only [List.length_append, List.length_cons, List.length_nil]
  rw [h a1 m1 a2 m2]

/-- `init_table` preserves per-table uniform column lengths. -/
theorem uniform_initTable (e : ECSV) (name : String) (fields : List String)
    (ln : Nat) (h : ∀ p ∈ e.extcsv, uniformTable p.2) :
    ∀ p ∈ (initTable e name fields ln).2.extcsv, uniformTable p.2 := by
  intro p hp
  unfold initTable at hp
  split at hp <;>
  · simp only [] at hp
    rcases mem_alistReplace hp with h1 | h1
    · subst h1
      intro c1 hc1 c2 hc2
      have e1 := emptyCols_mem fields [] (by intro q hq; cases hq) c1 hc1
      have e2 := emptyCols_mem fields [] (by intro q hq; cases hq) c2 hc2
      rw [e1, e2]
    · exact h p h1

/-- `add_values_to_table` preserves per-table uniform column lengths. -/
theorem uniform_addValues (sev : Nat → Bool) (e : ECSV) (name : String)
    (values : List String) (ln : Nat)
    (h : ∀ p ∈ e.extcsv, uniformTable p.2) :
    ∀ p ∈ (addValuesToTable sev e name values ln).1.extcsv,
      uniformTable p.2 := by
  intro p hp
  unfold addValuesToTable at hp
  split at hp
  · exact h p hp
  · next tbl hlk =>
      simp only [] at hp
      rcases mem_alistReplace hp with h1 | h1
      · rw [h1]
        exact uniformTable_appendRow tbl _ (h _ (lookup_mem hlk))
      · exact h p h1

/-- The parse loop preserves per-table uniform column lengths. -/
theorem uniform_parseStep (sev : Nat → Bool) (st : ParseState)
    (item : Nat × List String)
    (h : ∀ p ∈ st.e.extcsv, uniformTable p.2) :
    ∀ p ∈ (parseStep sev st item).e.extcsv, uniformTable p.2 := by
  unfold parseStep
  cases hm : st.mode with
  | expectHeader name hln =>
      dsimp only
      split
      · exact h
      · exact uniform_initTable st.e name item.2 hln h
  | normal parent =>
      dsimp only
      split
      · exact h
      · split
        · exact h
        · split
          · exact h
          · cases parent with
            | some p => exact uniform_addValues sev st.e p _ item.1 h
            | none => exact h

theorem uniform_parseFold (sev : Nat → Bool) :
    ∀ (rows : List (Nat × List String)) (st : ParseState),
      (∀ p ∈ st.e.extcsv, uniformTable p.2) →
      ∀ p ∈ (rows.foldl (parseStep sev) st).e.extcsv, uniformTable p.2 := by
  intro rows
  induction rows with
  | nil => intro st h; exact h
  | cons item rest ih =>
      intro st h
      exact ih _ (uniform_parseStep sev st item h)

/-- Claim C2: for every input and severity table, every Extended CSV
document produced by a completed parse has equal-length columns in
every table. -/
theorem c2_uniform_columns (sev : Nat → Bool) (rows : List (List String))
    (e : ECSV) (h : ecsvConstruct sev rows = some e) :
    ∀ p ∈ e.extcsv, uniformTable p.2 := by
  have base : ∀ p ∈ (parseECSV sev rows).1.extcsv, uniformTable p.2 := by
    unfold parseECSV
    dsimp only
    split <;>
    · exact uniform_parseFold sev _ _ (by intro p hp; cases hp)
  simp only [ecsvConstruct] at h
  split at h
  · cases h
    exact base
  · cases h

/-- Claim C2 witness: the three-line input `rowsC2` parses successfully
to `docC2`, whose columns the theorem proves uniform. -/
theorem c2_witness :
    ecsvConstruct sevNone rowsC2 = some docC2 ∧
    ∀ p ∈ docC2.extcsv, uniformTable p.2 :=
  ⟨by decide, c2_uniform_columns sevNone rowsC2 docC2 (by decide)⟩

/-! ### Claim C7: dense instance naming -/

/-- `init_table` preserves dense instance naming (and uniqueness of the
count keys). -/
theorem denseInv_initTable (e : ECSV) (name : String) (fields : List String)
    (ln : Nat) (hd : dense e) (hn : (e.tableCount.map Prod.fst).Nodup) :
    dense (initTable e name fields ln).2 ∧
    (((initTable e name fields ln).2.tableCount.map Prod.fst).Nodup) := by
  unfold initTable
  cases hc : List.lookup name e.tableCount with
  | none =>
      dsimp only
      refine ⟨⟨?_, ?_⟩, ?_⟩
      · intro p hp
        rcases mem_alistReplace hp with h1 | h1
        · subst h1
          refine ⟨Nat.le_refl 1, ?_⟩
          intro j hj1 hj2
          have hj : j = 1 := Nat.le_antisymm hj2 hj1
          subst hj
          show instName name 1 ∈ (alistReplace name _ e.extcsv).map Prod.fst
          refine (keys_alistReplace _ _ _ _).2 (Or.inl ?_)
          simp [instName]
        · obtain ⟨h2, h3⟩ := hd.1 p h1
          refine ⟨h2, ?_⟩
          intro j hj1 hj2
          show instName p.1 j ∈ (alistReplace name _ e.extcsv).map Prod.fst
          exact (keys_alistReplace _ _ _ _).2 (Or.inr (h3 j hj1 hj2))
      · intro nm hnm
        rcases (keys_alistReplace _ _ _ _).1 hnm with h1 | h1
        · exact ⟨(name, 1), self_mem_alistReplace _ _ _, 1, Nat.le_refl 1,
            Nat.le_refl 1, by rw [h1]; simp [instName]⟩
        · obtain ⟨p, hp, j, hj1, hj2, hj3⟩ := hd.2 nm h1
          rcases mem_alistReplace_of_mem (v := 1) (k := name) hp with h2 | h2
          · exact absurd (show (name, p.2) ∈ e.tableCount by
              rw [← h2]; exact hp) (lookup_none_not_mem hc)
          · exact ⟨p, h2, j, hj1, hj2, hj3⟩
      · exact nodup_keys_alistReplace _ _ _ hn
  | some c =>
      dsimp only
      have hcm := lookup_mem hc
      have hc1 : 1 ≤ c := (hd.1 _ hcm).1
      have hinst : instName name (c + 1) = name ++ "_" ++ toString (c + 1) := by
        unfold instName
        rw [if_neg (by omega)]
      refine ⟨⟨?_, ?_⟩, ?_⟩
      · intro p hp
        rcases mem_alistReplace hp with h1 | h1
        · subst h1
          refine ⟨by omega, ?_⟩
          intro j hj1 hj2
          show instName name j ∈
            (alistReplace (name ++ "_" ++ toString (c + 1)) _ e.extcsv).map
              Prod.fst
          by_cases hj : j ≤ c
          · exact (keys_alistReplace _ _ _ _).2
              (Or.inr ((hd.1 _ hcm).2 j hj1 hj))
          · have hj' : j = c + 1 := by omega
            subst hj'
            exact (keys_alistReplace _ _ _ _).2 (Or.inl hinst)
        · obtain ⟨h2, h3⟩ := hd.1 p h1
          refine ⟨h2, ?_⟩
          intro j hj1 hj2
          show instName p.1 j ∈
            (alistReplace (name ++ "_" ++ toString (c + 1)) _ e.extcsv).map
              Prod.fst
          exact (keys_alistReplace _ _ _ _).2 (Or.inr (h3 j hj1 hj2))
      · intro nm hnm
        rcases (keys_alistReplace _ _ _ _).1 hnm with h1 | h1
        · exact ⟨(name, c + 1), self_mem_alistReplace _ _ _, c + 1, by omega,
            Nat.le_refl _, by rw [h1, hinst]⟩
        · obtain ⟨p, hp, j, hj1, hj2, hj3⟩ := hd.2 nm h1
          by_cases hpn : p.1 = name
          · have hlk := lookup_of_mem_nodup hn hp
            rw [hpn, hc] at hlk
            have hpc : p.2 = c := by injection hlk with h; exact h.symm
            exact ⟨(name, c + 1), self_mem_alistReplace _ _ _, j, hj1,
              by omega, by rw [hj3, hpn]⟩
          · rcases mem_alistReplace_of_mem (v := c + 1) (k := name) hp
              with h2 | h2
            · exact absurd h2 hpn
            · exact ⟨p, h2, j, hj1, hj2, hj3⟩
      · exact nodup_keys_alistReplace _ _ _ hn

/-- `add_values_to_table` touches neither the key list of the document
nor the table counts, so it preserves dense instance naming. -/
theorem dense_addValues (sev : Nat → Bool) (e : ECSV) (name : String)
    (values : List String) (ln : Nat) (hd : dense e) :
    dense (addValuesToTable sev e name values ln).1 := by
  unfold addValuesToTable
  split
  · exact hd
  · next tbl hlk =>
      dsimp only
      have hk : (alistReplace name (appendRow tbl
          (values.take tbl.length ++
            List.replicate (tbl.length - values.length) "")) e.extcsv).map
          Prod.fst = e.extcsv.map Prod.fst :=
        keys_alistReplace_of_lookup hlk
      constructor
      · intro p hp
        obtain ⟨h1, h2⟩ := hd.1 p hp
        refine ⟨h1, ?_⟩
        intro j hj1 hj2
        show instName p.1 j ∈ (alistReplace name _ e.extcsv).map Prod.fst
        rw [hk]
        exact h2 j hj1 hj2
      · intro nm hnm
        have hnm2 : nm ∈ e.extcsv.map Prod.fst := by
          rw [← hk]
          exact hnm
        exact hd.2 nm hnm2

theorem addValues_tableCount (sev : Nat → Bool) (e : ECSV) (name : String)
    (values : List String) (ln : Nat) :
    (addValuesToTable sev e name values ln).1.tableCount = e.tableCount := by
  unfold addValuesToTable
  split <;> rfl

/-- One step of the parse loop preserves dense instance naming. -/
theorem denseInv_parseStep (sev : Nat → Bool) (st : ParseState)
    (item : Nat × List String) (hd : dense st.e)
    (hn : (st.e.tableCount.map Prod.fst).Nodup) :
    dense (parseStep sev st item).e ∧
    (((parseStep sev st item).e.tableCount.map Prod.fst).Nodup) := by
  unfold parseStep
  cases st.mode with
  | expectHeader name hln =>
      dsimp only
      split
      · exact ⟨hd, hn⟩
      · exact denseInv_initTable st.e name item.2 hln hd hn
  | normal parent =>
      dsimp only
      split
      · exact ⟨hd, hn⟩
      · split
        · exact ⟨hd, hn⟩
        · split
          · exact ⟨hd, hn⟩
          · cases parent with
            | some p =>
                refine ⟨dense_addValues sev st.e p _ item.1 hd, ?_⟩
                show (((addValuesToTable sev st.e p
                    (repairRow sev item.2 st.success).1
                    item.1).1.tableCount).map Prod.fst).Nodup
                rw [addValues_tableCount]
                exact hn
            | none => exact ⟨hd, hn⟩

theorem denseInv_parseFold (sev : Nat → Bool) :
    ∀ (rows : List (Nat × List String)) (st : ParseState),
      dense st.e → (st.e.tableCount.map Prod.fst).Nodup →
      dense ((rows.foldl (parseStep sev) st)).e := by
  intro rows
  induction rows with
  | nil => intro st hd _; exact hd
  | cons item rest ih =>
      intro st hd hn
      obtain ⟨hd2, hn2⟩ := denseInv_parseStep sev st item hd hn
      exact ih _ hd2 hn2

theorem dense_emptyECSV : dense emptyECSV := by
  constructor
  · intro p hp; cases hp
  · intro nm hnm; cases hnm

theorem denseInv_runInits :
    ∀ (ops : List (String × List String × Nat)) (e : ECSV), dense e →
      (e.tableCount.map Prod.fst).Nodup →
      dense (ops.foldl (fun e op => (initTable e op.1 op.2.1 op.2.2).2) e) ∧
      ((ops.foldl (fun e op => (initTable e op.1 op.2.1 op.2.2).2)
          e).tableCount.map Prod.fst).Nodup := by
  intro ops
  induction ops with
  | nil => intro e hd hn; exact ⟨hd, hn⟩
  | cons op rest ih =>
      intro e hd hn
      obtain ⟨hd2, hn2⟩ := denseInv_initTable e op.1 op.2.1 op.2.2 hd hn
      exact ih _ hd2 hn2

/-- Claim C7, amended: dense instance naming holds after any sequence
of `init_table` calls — in particular after parsing any input — so the
`T, T_2, …, T_k` property is established by the parser and maintained
by `init_table`; `remove_table` does not maintain it in general (see
the counterexample). -/
theorem c7_amended :
    (∀ ops : List (String × List String × Nat), dense (runInits ops)) ∧
    (∀ (sev : Nat → Bool) (rows : List (List String)),
      dense (parseECSV sev rows).1) := by
  constructor
  · intro ops
    exact (denseInv_runInits ops emptyECSV dense_emptyECSV (by decide)).1
  · intro sev rows
    unfold parseECSV
    dsimp only
    split <;>
    · exact denseInv_parseFold sev _ _ dense_emptyECSV (by decide)

/-- Claim C7, counterexample: two `#T` tables produce names `T`, `T_2`
with count 2; `remove_table \"T\"` then leaves the name set `{T_2}` with
count 1, which is not the dense set `{T}` the claim requires — so
`remove_table` does not maintain the naming property. -/
theorem c7_counterexample :
    removeTable (runInits opsC7) "T" =
      some ⟨[("T_2", [("F", [])])], [("T", 1)], [("T_2", 5)]⟩ ∧
    ¬ dense ⟨[("T_2", [("F", [])])], [("T", 1)], [("T_2", 5)]⟩ := by
  constructor
  · decide
  · intro hd
    have h1 := (hd.1 ("T", 1) (by simp)).2 1 (Nat.le_refl 1) (Nat.le_refl 1)
    simp [instName, keysOf] at h1

/-! ### Claim C8: ragged value rows -/

/-- Column-wise characterisation of the padded/truncated row appended
by `add_values_to_table`: column `i` of the result is column `i` of the
old table with `values[i]` (or the empty string, when the row is short)
stripped and appended; columns beyond the header width do not exist. -/
theorem appendRow_padded_get (tbl : Table) (values : List String) :
    ∀ i, (appendRow tbl (values.take tbl.length ++
        List.replicate (tbl.length - values.length) ""))[i]? =
      (tbl[i]?).map (fun tv => (tv.1, tv.2 ++ [pyStrip (values.getD i "")])) := by
  induction tbl generalizing values with
  | nil =>
      intro i
      simp [appendRow]
  | cons t ts ih =>
      intro i
      cases values with
      | nil =>
          cases i with
          | zero => simp [appendRow, List.replicate_succ]
          | succ n =>
              have := ih [] n
              simpa [appendRow, List.replicate_succ] using this
      | cons v vs =>
          cases i with
          | zero => simp [appendRow]
          | succ n =>
              have := ih vs n
              simpa [appendRow, List.length_cons, List.take_succ_cons,
                Nat.succ_sub_succ] using this

/-- Claim C8: when a value row is wider than the header,
`add_values_to_table` emits message 25 (failing the parse exactly when
25 is configured severe) and truncates the row to the header width;
when narrower, it emits nothing and right-pads with empty strings; in
both cases every column receives exactly the value at its own index
(or an empty string). -/
theorem c8_ragged_rows (sev : Nat → Bool) (e : ECSV) (name : String)
    (tbl : Table) (values : List String) (ln : Nat)
    (h : List.lookup name e.extcsv = some tbl) :
    (addValuesToTable sev e name values ln).2.1 =
      (if tbl.length < values.length then [25] else []) ∧
    (addValuesToTable sev e name values ln).2.2 =
      !(decide (tbl.length < values.length) && sev 25) ∧
    ∃ tbl', List.lookup name
        (addValuesToTable sev e name values ln).1.extcsv = some tbl' ∧
      tbl'.length = tbl.length ∧
      ∀ i, tbl'[i]? =
        (tbl[i]?).map (fun tv => (tv.1, tv.2 ++ [pyStrip (values.getD i "")])) := by
  unfold addValuesToTable
  rw [h]
  dsimp only
  refine ⟨?_, rfl, ?_⟩
  · by_cases hlt : tbl.length < values.length <;> simp [hlt]
  · refine ⟨_, lookup_alistReplace_self _ _ _, ?_, appendRow_padded_get tbl values⟩
    unfold appendRow
    simp only [List.length_map, List.length_zip, List.length_append,
      List.length_take, List.length_replicate]
    omega

/-- Claim C8 witness: the specification's ragged-row scenario — header
`Latitude, Longitude, Height`, row `43.78, -79.47, 198, extra` — with
code 25 configured severe: message 25 is emitted, the operation reports
failure, and the row is truncated to the three header columns. -/
theorem c8_witness :
    (addValuesToTable sev25 eLocC8 "LOCATION" valsC8 7).2.1 = [25] ∧
    (addValuesToTable sev25 eLocC8 "LOCATION" valsC8 7).2.2 = false ∧
    List.lookup "LOCATION"
        (addValuesToTable sev25 eLocC8 "LOCATION" valsC8 7).1.extcsv =
      some [("Latitude", ["43.78"]), ("Longitude", ["-79.47"]),
            ("Height", ["198"])] := by
  have h := c8_ragged_rows sev25 eLocC8 "LOCATION" tblLocC8 valsC8 7 rfl
  refine ⟨h.1.trans (by decide), (h.2.1).trans (by decide), by decide⟩

/-! ### Claim C5: dataset version scoring -/

theorem beqRat_iff (a b : ℚ) : beqRat a b = true ↔ a = b := by
  unfold beqRat
  constructor
  · intro h
    simp only [Bool.and_eq_true, beq_iff_eq] at h
    exact Rat.ext h.1 h.2
  · rintro rfl
    simp

theorem le_qmax_left (a b : ℚ) : a ≤ qmax a b := by
  unfold qmax
  split
  · next h => exact le_of_lt (show a < b from h)
  · next h => exact le_refl a

theorem le_qmax_right (a b : ℚ) : b ≤ qmax a b := by
  unfold qmax
  split
  · next h => exact le_refl b
  · next h =>
      exact le_of_not_lt (show ¬ a < b by simpa using h)

theorem qmax_cases (a b : ℚ) : qmax a b = a ∨ qmax a b = b := by
  unfold qmax
  split
  · exact Or.inr rfl
  · exact Or.inl rfl

theorem le_foldl_qmax : ∀ (l : List ℚ) (q : ℚ), q ≤ l.foldl qmax q := by
  intro l
  induction l with
  | nil => intro q; exact le_refl q
  | cons a rest ih =>
      intro q
      exact le_trans (le_qmax_left q a) (ih (qmax q a))

theorem mem_le_foldl_qmax : ∀ (l : List ℚ) (q x : ℚ), x ∈ l →
    x ≤ l.foldl qmax q := by
  intro l
  induction l with
  | nil => intro q x h; cases h
  | cons a rest ih =>
      intro q x h
      rcases List.mem_cons.1 h with h1 | h1
      · subst h1
        exact le_trans (le_qmax_right q x) (le_foldl_qmax rest (qmax q x))
      · exact ih (qmax q a) x h1

theorem foldl_qmax_mem : ∀ (l : List ℚ) (q : ℚ),
    l.foldl qmax q = q ∨ l.foldl qmax q ∈ l := by
  intro l
  induction l with
  | nil => intro q; exact Or.inl rfl
  | cons a rest ih =>
      intro q
      rcases ih (qmax q a) with h | h
      · rcases qmax_cases q a with h2 | h2
        · exact Or.inl (h.trans h2)
        · exact Or.inr (List.mem_cons.2 (Or.inl (h.trans h2)))
      · exact Or.inr (List.mem_cons.2 (Or.inr h))

theorem ratingOf_nonneg (schema : List (String × List String))
    (docTables : List String) (v : String) :
    0 ≤ ratingOf schema docTables v := by
  unfold ratingOf
  rw [Rat.mkRat_eq_div]
  apply div_nonneg
  · exact_mod_cast Int.ofNat_nonneg _
  · exact_mod_cast Nat.zero_le _

/-- Claim C5: under the precondition that every version of the
version-keyed schema has at least one unique table, version resolution
scores each version as `|document tables among uniques(v)| /
|uniques(v)|` (the `ratingOf` value); when every score is zero it
reports message 13 and fails fatally, and otherwise it returns a
version of the schema attaining the maximal (nonzero) score. -/
theorem c5_version_scoring (schema : List (String × List String))
    (docTables : List String) (hne : schema ≠ [])
    (hu : ∀ v ∈ schema.map Prod.fst, uniqueTables schema v ≠ []) :
    ((∀ v ∈ schema.map Prod.fst, ratingOf schema docTables v = 0) →
      determineVersion schema docTables = .error .thirteen) ∧
    ((∃ v ∈ schema.map Prod.fst, ratingOf schema docTables v ≠ 0) →
      ∃ v, determineVersion schema docTables = .ok v ∧
        v ∈ schema.map Prod.fst ∧
        ratingOf schema docTables v ≠ 0 ∧
        ∀ w ∈ schema.map Prod.fst,
          ratingOf schema docTables w ≤ ratingOf schema docTables v) := by
  obtain ⟨s0, ss, rfl⟩ : ∃ s0 ss, schema = s0 :: ss := by
    cases schema with
    | nil => exact absurd rfl hne
    | cons s0 ss => exact ⟨s0, ss, rfl⟩
  have hany : ((s0 :: ss).map Prod.fst).any
      (fun v => (uniqueTables (s0 :: ss) v).isEmpty) = false := by
    rw [List.any_eq_false]
    intro v hv
    simpa [List.isEmpty_iff] using hu v hv
  set sch := s0 :: ss with hsch
  set rating := ratingOf sch docTables with hrABB
  set best := ((ss.map Prod.fst).map rating).foldl qmax (rating s0.1)
    with hbest
  have hbs : bestScore sch docTables = some best := by
    rw [hsch, bestScore]
    simp only [List.map_cons]
  have hmem_best : best = rating s0.1 ∨
      best ∈ (ss.map Prod.fst).map rating :=
    foldl_qmax_mem _ _
  have hub : ∀ w ∈ sch.map Prod.fst, rating w ≤ best := by
    intro w hw
    rw [hsch] at hw
    simp only [List.map_cons, List.mem_cons] at hw
    rcases hw with h1 | h1
    · rw [h1]
      exact le_foldl_qmax _ _
    · exact mem_le_foldl_qmax _ _ _ (List.mem_map_of_mem rating h1)
  have hattain : ∃ w ∈ sch.map Prod.fst, rating w = best := by
    rcases hmem_best with h1 | h1
    · exact ⟨s0.1, by simp [hsch], h1.symm⟩
    · obtain ⟨w, hw, hweq⟩ := List.mem_map.1 h1
      exact ⟨w, by simp [hsch, List.mem_cons, hw], hweq⟩
  constructor
  · intro hzero
    have hbz : best = 0 := by
      obtain ⟨w, hw, hweq⟩ := hattain
      rw [← hweq]
      exact hzero w hw
    unfold determineVersion
    simp only [hany, Bool.false_eq_true, if_false, hbs]
    rw [if_pos ((beqRat_iff best 0).2 hbz)]
  · intro hex
    obtain ⟨v, hv, hvne⟩ := hex
    have hbpos : best ≠ 0 := by
      intro hc
      apply hvne
      have h1 : rating v ≤ best := hub v hv
      have h2 : 0 ≤ rating v := ratingOf_nonneg _ _ _
      rw [hc] at h1
      exact le_antisymm h1 h2
    have hfind : ((sch.map Prod.fst).find?
        (fun w => beqRat (rating w) best)).isSome = true := by
      apply List.find?_isSome.2
      obtain ⟨w, hw, hweq⟩ := hattain
      exact ⟨w, hw, (beqRat_iff _ _).2 hweq⟩
    obtain ⟨w, hw⟩ := Option.isSome_iff_exists.1 hfind
    have hwmem := List.mem_of_find?_eq_some hw
    have hweq : rating w = best :=
      (beqRat_iff _ _).1 (by simpa using List.find?_some hw)
    refine ⟨w, ?_, hwmem, ?_, ?_⟩
    · unfold determineVersion
      simp only [hany, Bool.false_eq_true, if_false, hbs]
      rw [if_neg (fun hc => hbpos ((beqRat_iff best 0).1 hc)), hw]
    · rw [hweq]
      exact hbpos
    · intro x hx
      rw [hweq]
      exact hub x hx

/-- Claim C5 witness: a two-version schema where the document contains
version 1's unique table: version `1` is selected with score 1. -/
theorem c5_witness :
    ∃ v, determineVersion schemaA ["GLOBAL"] = .ok v ∧
      v ∈ schemaA.map Prod.fst ∧
      ratingOf schemaA ["GLOBAL"] v ≠ 0 ∧
      ∀ w ∈ schemaA.map Prod.fst,
        ratingOf schemaA ["GLOBAL"] w ≤ ratingOf schemaA ["GLOBAL"] v :=
  (c5_version_scoring schemaA ["GLOBAL"] (by decide) (by decide)).2
    ⟨"1", by decide, by decide⟩

/-! ### Claim C1: verify mode versus ingest mode -/

/-- `add_instrument` returns the same result and performs the same
document mutation in verify mode as in ingest mode; only the registry
save is dropped. -/
theorem addInstrument_verify_eq (reg : Reg) (d : Doc) :
    addInstrument true reg d =
      ((addInstrument false reg d).1, (addInstrument false reg d).2.1, []) := by
  unfold addInstrument
  split <;> simp

/-- The instrument save of `add_instrument` is not a deployment
write. -/
theorem addInstrument_writes (reg : Reg) (d : Doc) :
    (addInstrument false reg d).2.2.filter Effect.isDeployment = [] := by
  unfold addInstrument
  split <;> simp [Effect.isDeployment]

/-- The instrument phase of `process_data` differs between verify and
ingest mode only in its writes, and its ingest-mode writes contain no
deployment write. -/
theorem instrumentPhase_verify (reg : Reg) (d0 : Doc) :
    instrumentPhase true reg d0 =
      { instrumentPhase false reg d0 with writes := [] } ∧
    (instrumentPhase false reg d0).writes.filter Effect.isDeployment = [] := by
  unfold instrumentPhase
  dsimp only
  split
  · exact ⟨rfl, rfl⟩
  · split
    · exact ⟨rfl, rfl⟩
    · rw [addInstrument_verify_eq]
      split
      · exact ⟨rfl, addInstrument_writes reg _⟩
      · exact ⟨rfl, addInstrument_writes reg _⟩

/-- Every write performed by the deployment check is a deployment
write. -/
theorem checkDeployment_writes (reg : Reg) (d : Doc) :
    (checkDeployment reg d).2.filter Effect.isDeployment =
      (checkDeployment reg d).2 := by
  unfold checkDeployment
  dsimp only
  split
  · rfl
  · split
    · rfl
    · split <;> rfl

/-- Every write performed by the pre-deployment check phase is a
deployment write. -/
theorem preChecks_writes (reg : Reg) (d0 : Doc) :
    (preChecks reg d0).writes.filter Effect.isDeployment =
      (preChecks reg d0).writes := by
  unfold preChecks
  dsimp only
  exact checkDeployment_writes reg _

/-- After the deployment block, a verify-mode run produces the same
outcome and diagnostics as an ingest-mode run and keeps exactly the
deployment writes of the ingest-mode run. -/
theorem afterDeployment_verify (env : Env) (p : PreOut)
    (hw : p.writes.filter Effect.isDeployment = p.writes) :
    (afterDeployment true env p).outcome =
      (afterDeployment false env p).outcome ∧
    (afterDeployment true env p).warnings =
      (afterDeployment false env p).warnings ∧
    (afterDeployment true env p).errors =
      (afterDeployment false env p).errors ∧
    (afterDeployment true env p).writes =
      (afterDeployment false env p).writes.filter Effect.isDeployment := by
  obtain ⟨hieq, hif⟩ := instrumentPhase_verify env.reg p.doc
  unfold afterDeployment
  rw [hieq]
  dsimp only
  refine ⟨?_, ?_, ?_, ?_⟩ <;>
  · split
    · simp [List.filter_append, hw, hif]
    · split
      · simp [List.filter_append, hw, hif]
      · split
        · simp [List.filter_append, hw, hif]
        · split
          · simp [List.filter_append, hw, hif]
          · split
            · simp [List.filter_append, hw, hif]
            · (try split) <;> (try split) <;>
                first
                  | contradiction
                  | (simp [List.filter_append, hw, hif, Effect.isDeployment]
                     try (intro a ha
                          (try split at ha) <;> (try split at ha) <;> simp_all)
                     done)

/-- Claim C1, amended: for every registry state, input outcome and
prompt-bypass flag, a verify-only run of `process_data` produces
exactly the same outcome, warnings and errors as an ingest run, and
its writes are exactly the deployment writes of the ingest run (the
date-range persistence of the deployment check); the per-file
persistence writes and the instrument insertion are skipped. -/
theorem c1_amended (bypass : Bool) (env : Env) :
    (processData true bypass env).outcome =
      (processData false bypass env).outcome ∧
    (processData true bypass env).warnings =
      (processData false bypass env).warnings ∧
    (processData true bypass env).errors =
      (processData false bypass env).errors ∧
    (processData true bypass env).writes =
      (processData false bypass env).writes.filter Effect.isDeployment := by
  unfold processData
  cases hp : env.parsed with
  | none => exact ⟨rfl, rfl, rfl, rfl⟩
  | some doc0 =>
      dsimp only
      split
      · exact ⟨rfl, rfl, rfl, (preChecks_writes env.reg doc0).symm⟩
      · exact afterDeployment_verify env (preChecks env.reg doc0)
          (preChecks_writes env.reg doc0)

end WDR
